import Mathlib

/-!
Verification development for the hexonis world-state engine.

The definitions below are a shallow embedding of the TypeScript sources:

* `apps/server/src/game/TileManager.ts` — the `TileManager` class (claims,
  alliance handling, nexus registration, the recharge tick);
* the shared hex-math module (`hex_distance`, `hex_to_pixel`, `pixel_to_hex`,
  `get_neighbors`).

Modelling conventions:

* JavaScript `number` values are modelled as `ℚ` (exact rationals) except for
  the pixel-coordinate math, which is modelled over `ℝ` because it involves
  `Math.sqrt(3)`.  `Number.isFinite` checks are therefore always true and are
  dropped where the source guards with them.
* `value.toFixed(4)` re-parsed with `Number(...)` is modelled as `round4`
  (round half towards +∞ at four decimals, matching `Math.round`-style ties).
* Redis hashes/sets/zsets are modelled as typed fields of a `World` record;
  the string encoding (`""` for null, `"q:r"` members) is absorbed by
  `Option`/pair types.  `parseMember` never fails on the typed members, so
  its failure branches disappear.
* `String.prototype.trim`/`toUpperCase` are modelled by `strTrim`/`strUpper`
  over the character list (Lean's built-in `String.trim`/`String.toUpper` do
  not reduce in the kernel).  User ids passing through `normalizeUserId` are
  modelled in already-trimmed form: `normalizeUserId` only performs the
  non-empty check, and the whitespace trimming of the source is the identity
  on such ids.
-/

/-- JavaScript `Math.round`: round half towards positive infinity. -/
def jsRound (x : ℚ) : ℤ := ⌊x + 1 / 2⌋

/-- Model of `toFixedPrecision(value)` from `TileManager.ts`
(`Number(value.toFixed(4))`): round to four decimal places. -/
def round4 (x : ℚ) : ℚ := (jsRound (x * 10000) : ℚ) / 10000

/-- Model of the `clamp(value, minValue, maxValue)` helper:
`Math.max(minValue, Math.min(maxValue, value))`. -/
def clamp (value minValue maxValue : ℚ) : ℚ := max minValue (min maxValue value)

/-- A rational is representable with four decimal places.  Every numeric value
the engine writes to the store has this shape (`toFixedPrecision` is applied
on every persist). -/
def Is4dp (x : ℚ) : Prop := round4 x = x

theorem is4dp_iff (x : ℚ) : Is4dp x ↔ ∃ z : ℤ, x = (z : ℚ) / 10000 := by
  constructor
  · intro h
    exact ⟨jsRound (x * 10000), h.symm⟩
  · rintro ⟨z, rfl⟩
    have hz : ((z : ℚ) / 10000) * 10000 = (z : ℚ) := by
      field_simp
    simp only [Is4dp, round4, hz, jsRound]
    have : ⌊(z : ℚ) + 1 / 2⌋ = z := by
      rw [Int.floor_int_add]
      norm_num
    rw [this]

theorem Is4dp.intCast (z : ℤ) : Is4dp (z : ℚ) := by
  rw [is4dp_iff]
  exact ⟨z * 10000, by push_cast; ring⟩

theorem Is4dp.sub {a b : ℚ} (ha : Is4dp a) (hb : Is4dp b) : Is4dp (a - b) := by
  rw [is4dp_iff] at ha hb ⊢
  obtain ⟨za, rfl⟩ := ha
  obtain ⟨zb, rfl⟩ := hb
  exact ⟨za - zb, by push_cast; ring⟩

theorem Is4dp.add {a b : ℚ} (ha : Is4dp a) (hb : Is4dp b) : Is4dp (a + b) := by
  rw [is4dp_iff] at ha hb ⊢
  obtain ⟨za, rfl⟩ := ha
  obtain ⟨zb, rfl⟩ := hb
  exact ⟨za + zb, by push_cast; ring⟩

theorem clamp_eq_self {x lo hi : ℚ} (h1 : lo ≤ x) (h2 : x ≤ hi) : clamp x lo hi = x := by
  simp [clamp, max_eq_right, min_eq_right, h1, h2, min_eq_right h2]

theorem clamp_le {x lo hi : ℚ} (hlo : lo ≤ hi) : clamp x lo hi ≤ hi := by
  simp only [clamp]
  exact max_le hlo (min_le_left _ _)

theorem le_clamp {x lo hi : ℚ} : lo ≤ clamp x lo hi := le_max_left _ _

/-- Model of JavaScript `String.prototype.toUpperCase` (ASCII range; alliance
tags are validated to `[A-Z0-9]` right after, so the non-ASCII cases never
matter). -/
def strUpper (s : String) : String := String.mk (s.data.map Char.toUpper)

/-- Model of JavaScript `String.prototype.trim`: drop leading and trailing
whitespace. -/
def strTrim (s : String) : String :=
  String.mk (((s.data.dropWhile Char.isWhitespace).reverse.dropWhile Char.isWhitespace).reverse)

namespace HexMath

/-!
Embedding of the shared hex-math module.  Pixel coordinates are real numbers;
the source's `number` (IEEE double) is idealized as `ℝ`.
-/

/-- `hex_distance` from the shared hex math: `(|dq| + |dr| + |dq+dr|) / 2`
on axial coordinates.  The sum is always even, so integer division is exact. -/
def hex_distance (a b : ℤ × ℤ) : ℤ :=
  (|a.1 - b.1| + |a.2 - b.2| + |a.1 - b.1 + (a.2 - b.2)|) / 2

/-- `get_neighbors(q, r)`: the six axial unit directions added to `(q, r)`,
in source order. -/
def get_neighbors (q r : ℤ) : List (ℤ × ℤ) :=
  [(q + 1, r), (q + 1, r - 1), (q, r - 1), (q - 1, r), (q - 1, r + 1), (q, r + 1)]

/-- `roundAxial(q, r)` from the shared hex math: cube-rounding.  The source
tracks `roundedX/roundedY/roundedZ` and patches the one with the largest
rounding error; the returned record is `(roundedX, roundedZ)` after patching. -/
noncomputable def roundAxial (q r : ℝ) : ℤ × ℤ :=
  let x := q
  let z := r
  let y := -x - z
  let roundedX := round x
  let roundedY := round y
  let roundedZ := round z
  let xDiff := |(roundedX : ℝ) - x|
  let yDiff := |(roundedY : ℝ) - y|
  let zDiff := |(roundedZ : ℝ) - z|
  if xDiff > yDiff ∧ xDiff > zDiff then (-roundedY - roundedZ, roundedZ)
  else if yDiff > zDiff then (roundedX, roundedZ)
  else (roundedX, -roundedX - roundedY)

/-- `hex_to_pixel(q, r, size)`: `x = s·√3·(q + r/2)`, `y = s·1.5·r`.
The positive-size guard of `assertPositiveSize` appears as a hypothesis of the
theorems below. -/
noncomputable def hex_to_pixel (q r size : ℝ) : ℝ × ℝ :=
  (size * Real.sqrt 3 * (q + r / 2), size * 1.5 * r)

/-- `pixel_to_hex(x, y, size)`: the standard axial inverse followed by
cube-rounding. -/
noncomputable def pixel_to_hex (x y size : ℝ) : ℤ × ℤ :=
  roundAxial ((Real.sqrt 3 / 3 * x - y / 3) / size) (2 / 3 * y / size)

theorem roundAxial_intCast (q r : ℤ) : roundAxial (q : ℝ) (r : ℝ) = (q, r) := by
  have hy : (-(q : ℝ) - (r : ℝ)) = ((-q - r : ℤ) : ℝ) := by push_cast; ring
  simp only [roundAxial, hy, round_intCast]
  have hx : |((q : ℤ) : ℝ) - (q : ℝ)| = 0 := by simp
  have hyd : |((-q - r : ℤ) : ℝ) - ((-q - r : ℤ) : ℝ)| = 0 := by simp
  push_cast
  norm_num

/-- C8: `pixel_to_hex ∘ hex_to_pixel` recovers any integer axial coordinate
pair exactly, for every positive size.  This is also why the coordinate
round-trip validation in `TileManager.validateCoordinates` (which projects
integer `(q, r)` to pixel space at size 1 and back) never rejects an integer
coordinate pair. -/
theorem pixel_to_hex_hex_to_pixel (q r : ℤ) (s : ℝ) (hs : 0 < s) :
    pixel_to_hex (hex_to_pixel (q : ℝ) (r : ℝ) s).1 (hex_to_pixel (q : ℝ) (r : ℝ) s).2 s
      = (q, r) := by
  have hsne : s ≠ 0 := ne_of_gt hs
  have h3 : Real.sqrt 3 * Real.sqrt 3 = 3 := Real.mul_self_sqrt (by norm_num)
  have hq : (Real.sqrt 3 / 3 * (hex_to_pixel (q : ℝ) (r : ℝ) s).1
      - (hex_to_pixel (q : ℝ) (r : ℝ) s).2 / 3) / s = (q : ℝ) := by
    simp only [hex_to_pixel]
    have e1 : Real.sqrt 3 / 3 * (s * Real.sqrt 3 * ((q : ℝ) + (r : ℝ) / 2)) - s * 1.5 * (r : ℝ) / 3
        = Real.sqrt 3 * Real.sqrt 3 * (s * ((q : ℝ) + (r : ℝ) / 2)) / 3
          - s * 1.5 * (r : ℝ) / 3 := by ring
    rw [e1, h3]
    field_simp
    ring
  have hr : 2 / 3 * (hex_to_pixel (q : ℝ) (r : ℝ) s).2 / s = (r : ℝ) := by
    simp only [hex_to_pixel]
    field_simp
    ring
  rw [pixel_to_hex, hq, hr, roundAxial_intCast]

end HexMath

/-- Witness for `pixel_to_hex_hex_to_pixel` at `(q, r) = (2, -1)`, size 1. -/
theorem pixel_to_hex_hex_to_pixel_witness :
    HexMath.pixel_to_hex (HexMath.hex_to_pixel ((2 : ℤ) : ℝ) ((-1 : ℤ) : ℝ) 1).1
      (HexMath.hex_to_pixel ((2 : ℤ) : ℝ) ((-1 : ℤ) : ℝ) 1).2 1 = (2, -1) :=
  HexMath.pixel_to_hex_hex_to_pixel 2 (-1) 1 (by norm_num)

/-!
## Data model

Typed counterparts of the Redis-backed state of `TileManager.ts`.  The store
keys (`tile:q:r`, `player:uid:state`, `tiles:index`, `chunk:cq:cr:tiles`,
`owner:uid:tiles`, `poi:index`, `leaderboard:tiles`, `chunk:activity`) become
the fields of `World` below; set members of the form `"q:r"` become pairs, so
`parseMember` never fails, and `""`-encoded nulls become `Option`.
-/

inductive TileType where
  | normal
  | nexus
deriving DecidableEq

/-- An `#RRGGBB` color, kept as its three channel bytes (the hex formatting of
`colorFromAllianceTag` is injective on these, so nothing is lost). -/
structure Rgb where
  r : ℤ
  g : ℤ
  b : ℤ
deriving DecidableEq

structure TileState where
  q : ℤ
  r : ℤ
  ownerId : Option String
  ownerAllianceTag : Option String
  ownerAllianceColor : Option Rgb
  energy : ℚ
  lastUpdate : ℚ
  integrity : ℚ
  level : ℤ
  tileType : TileType
deriving DecidableEq

structure PlayerEnergyState where
  userId : String
  displayName : String
  allianceTag : Option String
  allianceColor : Option Rgb
  energy : ℚ
  lastUpdate : ℚ
deriving DecidableEq

structure PlayerProfilePayload where
  userId : String
  displayName : String
  allianceTag : Option String
  allianceColor : Option Rgb
deriving DecidableEq

/-- The `Required<TileManagerOptions>` configuration record (only the fields
the modelled operations read). -/
structure TileManagerOptions where
  chunkSize : ℤ
  maxEnergy : ℚ
  maxPlayerEnergy : ℚ
  initialTileEnergy : ℚ
  initialTileIntegrity : ℚ
  initialTileLevel : ℤ
  initialPlayerEnergy : ℚ
  energyRechargePerSecond : ℚ
  integrityDecayPerMinute : ℚ
  freeClaimCost : ℚ
  hostileClaimCostMultiplier : ℚ
  repairCostEnergy : ℚ
  repairIntegrityGain : ℚ
  maxClaimDistanceFromOwned : ℤ
  allianceNeighborBonusMultiplier : ℚ

/-- `DEFAULT_OPTIONS` from `TileManager.ts`. -/
def DEFAULT_OPTIONS : TileManagerOptions where
  chunkSize := 64
  maxEnergy := 100
  maxPlayerEnergy := 1000
  initialTileEnergy := 100
  initialTileIntegrity := 100
  initialTileLevel := 1
  initialPlayerEnergy := 100
  energyRechargePerSecond := 1
  integrityDecayPerMinute := 1
  freeClaimCost := 10
  hostileClaimCostMultiplier := 50
  repairCostEnergy := 5
  repairIntegrityGain := 20
  maxClaimDistanceFromOwned := 8
  allianceNeighborBonusMultiplier := 21 / 20

/-- The full key-value store state owned by the engine. -/
structure World where
  tiles : ℤ × ℤ → Option TileState
  players : String → Option PlayerEnergyState
  tilesIndex : Finset (ℤ × ℤ)
  chunkTiles : ℤ × ℤ → Finset (ℤ × ℤ)
  ownerTiles : String → Finset (ℤ × ℤ)
  poiIndex : Finset (TileType × ℤ × ℤ × ℤ)
  leaderboard : String → ℤ
  chunkActivity : ℤ × ℤ → ℤ

def emptyWorld : World where
  tiles := fun _ => none
  players := fun _ => none
  tilesIndex := ∅
  chunkTiles := fun _ => ∅
  ownerTiles := fun _ => ∅
  poiIndex := ∅
  leaderboard := fun _ => 0
  chunkActivity := fun _ => 0

inductive ClaimTileResult where
  | ok (created captured : Bool) (tile : TileState) (energyAfter energyCost : ℚ)
  | alreadyClaimed (tile : Option TileState) (playerEnergy : ℚ)
  | outOfRange (tile : Option TileState) (maxDistance : ℤ)
      (nearestDistance : Option ℤ) (playerEnergy : ℚ)
  | insufficientEnergy (tile : Option TileState) (requiredEnergy playerEnergy : ℚ)
deriving DecidableEq

inductive SpendResult where
  | ok (energyAfter : ℚ)
  | fail (energyAfter : ℚ)
deriving DecidableEq

inductive RangeCheck where
  | ok
  | outOfRange (nearestDistance : Option ℤ)
deriving DecidableEq

namespace TileManager

/-- `normalizeUserId`: reject the empty id (the source throws).  The source
first strips surrounding whitespace (`userId.trim()`); ids are modelled in
trimmed normal form (the spec's data model: non-empty trimmed strings), on
which that trimming is the identity. -/
def normalizeUserId (userId : String) : Option String :=
  if userId = "" then none else some userId

/-- `toChunkIndex(value)`: `Math.floor(value / chunkSize)`. -/
def toChunkIndex (cfg : TileManagerOptions) (value : ℤ) : ℤ :=
  ⌊(value : ℚ) / (cfg.chunkSize : ℚ)⌋

/-- The chunk of a tile, i.e. `chunkKeyForTile` without the string key. -/
def chunkKeyForTile (cfg : TileManagerOptions) (q r : ℤ) : ℤ × ℤ :=
  (toChunkIndex cfg q, toChunkIndex cfg r)

/-- `parseTile(q, r, hash)` on a present hash.  Clamping and normalization as
in the source; the `Number.isFinite` fallbacks are dropped (every `ℚ` is
finite), and the trim test on the stored color string is dropped (`Rgb` is
already structured). -/
def parseTile (cfg : TileManagerOptions) (q r : ℤ) (hash : TileState) : TileState :=
  let ownerId : Option String :=
    match hash.ownerId with
    | some s => if strTrim s = "" then none else some s
    | none => none
  { q := q
    r := r
    ownerId := ownerId
    ownerAllianceTag :=
      if ownerId = none then none
      else
        match hash.ownerAllianceTag with
        | some s => if strTrim s = "" then none else some s
        | none => none
    ownerAllianceColor := if ownerId = none then none else hash.ownerAllianceColor
    energy := clamp hash.energy 0 cfg.maxEnergy
    lastUpdate := (⌊hash.lastUpdate⌋ : ℚ)
    integrity := clamp hash.integrity 0 100
    level := max 1 hash.level
    tileType := hash.tileType }

/-- `loadTile(q, r)`: read the tile hash and parse it (`null` when absent). -/
def loadTile (cfg : TileManagerOptions) (w : World) (q r : ℤ) : Option TileState :=
  (w.tiles (q, r)).map (parseTile cfg q r)

/-- `persistTileState(key, tile)`: write the hash, rounding energy/integrity
to four decimals, flooring `lastUpdate`, and flooring/clamping `level`. -/
def persistTileState (w : World) (q r : ℤ) (tile : TileState) :
    World :=
  { w with
    tiles := Function.update w.tiles (q, r)
      (some { tile with
        q := q
        r := r
        energy := round4 tile.energy
        lastUpdate := (⌊tile.lastUpdate⌋ : ℚ)
        integrity := round4 tile.integrity
        level := max 1 tile.level }) }

/-- The parsing part of `getOrCreatePlayerState` for an existing hash. -/
def parsePlayerState (cfg : TileManagerOptions) (userId : String) (hash : PlayerEnergyState) :
    PlayerEnergyState :=
  { userId := userId
    displayName := if strTrim hash.displayName = "" then userId else hash.displayName
    allianceTag :=
      match hash.allianceTag with
      | some s => if strTrim s = "" then none else some s
      | none => none
    allianceColor := hash.allianceColor
    energy := clamp hash.energy 0 cfg.maxPlayerEnergy
    lastUpdate := (⌊hash.lastUpdate⌋ : ℚ) }

/-- `persistPlayerState(state)`: write the player hash, rounding energy to
four decimals and flooring `lastUpdate`. -/
def persistPlayerState (w : World) (state : PlayerEnergyState) : World :=
  { w with
    players := Function.update w.players state.userId
      (some { state with
        energy := round4 state.energy
        lastUpdate := (⌊state.lastUpdate⌋ : ℚ) }) }

/-- `getOrCreatePlayerState(userId)`: lazily create the player with initial
energy on first observation, otherwise parse the stored hash. -/
def getOrCreatePlayerState (cfg : TileManagerOptions) (w : World) (userId : String) (now : ℚ) :
    PlayerEnergyState × World :=
  match w.players userId with
  | none =>
    let state : PlayerEnergyState :=
      { userId := userId
        displayName := userId
        allianceTag := none
        allianceColor := none
        energy := cfg.initialPlayerEnergy
        lastUpdate := now }
    (state, persistPlayerState w state)
  | some hash => (parsePlayerState cfg userId hash, w)

/-- `getPlayerEnergy(userId)` (with the world it may have mutated by lazy
player creation). -/
def getPlayerEnergy (cfg : TileManagerOptions) (w : World) (userId : String) (now : ℚ) :
    ℚ × World :=
  let p := getOrCreatePlayerState cfg w userId now
  (p.1.energy, p.2)

/-- `getPlayerProfile(userId)`. -/
def getPlayerProfile (cfg : TileManagerOptions) (w : World) (userId : String) (now : ℚ) :
    PlayerProfilePayload × World :=
  let p := getOrCreatePlayerState cfg w userId now
  ({ userId := p.1.userId
     displayName := p.1.displayName
     allianceTag := p.1.allianceTag
     allianceColor := p.1.allianceColor }, p.2)

/-- `spendPlayerEnergy(userId, cost, now)`. -/
def spendPlayerEnergy (cfg : TileManagerOptions) (w : World) (userId : String) (cost : ℚ)
    (now : ℚ) : SpendResult × World :=
  if cost ≤ 0 then
    let p := getPlayerEnergy cfg w userId now
    (.ok p.1, p.2)
  else
    let p := getOrCreatePlayerState cfg w userId now
    if p.1.energy < cost then (.fail (round4 p.1.energy), p.2)
    else
      let nextEnergy := clamp (round4 (p.1.energy - cost)) 0 cfg.maxPlayerEnergy
      (.ok nextEnergy, persistPlayerState p.2 { p.1 with energy := nextEnergy, lastUpdate := now })

/-- `addPlayerEnergy(userId, gain, now)` (the recharge credit path). -/
def addPlayerEnergy (cfg : TileManagerOptions) (w : World) (userId : String) (gain : ℚ)
    (now : ℚ) : World :=
  if gain ≤ 0 then (getOrCreatePlayerState cfg w userId now).2
  else
    let p := getOrCreatePlayerState cfg w userId now
    persistPlayerState p.2
      { p.1 with
        energy := clamp (round4 (p.1.energy + gain)) 0 cfg.maxPlayerEnergy
        lastUpdate := now }

/-- The minimum hex distance from `(q, r)` to any tile the player owns, when
they own any.  This is the value the scan loop of `validateClaimDistance`
accumulates in `nearestDistance` when no owned tile is in range. -/
def nearestOwnedDistance (w : World) (userId : String) (q r : ℤ) : Option ℤ :=
  if h : (w.ownerTiles userId).Nonempty then
    some (((w.ownerTiles userId).image fun c => HexMath.hex_distance (q, r) c).min'
      (h.image _))
  else none

/-- `validateClaimDistance(userId, targetQ, targetR)`.  The source iterates
`owner:<uid>:tiles` in store order and returns `ok` as soon as one owned tile
is within `maxClaimDistanceFromOwned`; the iteration order only affects which
member triggers the early return, never the result, so the set-level
formulation below is extensionally the same: empty set ⇒ ok (first-claim
bypass); some member in range ⇒ ok; otherwise out-of-range with the minimum
distance (on typed members the parse failure that would yield `null` cannot
occur). -/
def validateClaimDistance (cfg : TileManagerOptions) (w : World) (userId : String) (q r : ℤ) :
    RangeCheck :=
  if w.ownerTiles userId = ∅ then .ok
  else if ∃ c ∈ w.ownerTiles userId,
      HexMath.hex_distance (q, r) c ≤ cfg.maxClaimDistanceFromOwned then .ok
  else .outOfRange (nearestOwnedDistance w userId q r)

/-- The claim cost computed at `TileManager.ts:255-259`: a tile that exists
and is owned by a different player costs `targetLevel × hostile multiplier`,
anything else costs the free claim cost. -/
def claimCost (cfg : TileManagerOptions) (currentTile : Option TileState) (uid : String) : ℚ :=
  let targetLevel : ℤ := (currentTile.map TileState.level).getD cfg.initialTileLevel
  match currentTile with
  | some t =>
    match t.ownerId with
    | some ownerId =>
      if ownerId ≠ uid then (targetLevel : ℚ) * cfg.hostileClaimCostMultiplier
      else cfg.freeClaimCost
    | none => cfg.freeClaimCost
  | none => cfg.freeClaimCost

/-- `Boolean(currentTile?.ownerId && currentTile.ownerId !== uid)`. -/
def isHostile (currentTile : Option TileState) (uid : String) : Bool :=
  match currentTile with
  | some t =>
    match t.ownerId with
    | some v => v != uid
    | none => false
  | none => false

/-- `poiMember(tile)`: the `"tileType:q:r:level"` member of `poi:index`. -/
def poiMember (tile : TileState) : TileType × ℤ × ℤ × ℤ :=
  (tile.tileType, tile.q, tile.r, max 1 tile.level)

/-- `recordChunkActivity(q, r, amount)`: `hIncrBy` on `chunk:activity`. -/
def recordChunkActivity (cfg : TileManagerOptions) (w : World) (q r : ℤ) (amount : ℚ) :
    World :=
  if amount ≤ 0 then w
  else
    { w with
      chunkActivity := Function.update w.chunkActivity (chunkKeyForTile cfg q r)
        (w.chunkActivity (chunkKeyForTile cfg q r) + ⌊amount⌋) }

/-- The commit block of `claimTile` (`TileManager.ts:273-327`): build the next
tile, persist it, maintain the chunk/global/owner indices, move the previous
owner's set and score on capture, credit the claimer's score, maintain
`poi:index`, and record chunk activity. -/
def claimCommit (cfg : TileManagerOptions) (w : World) (uid : String) (q r : ℤ) (now : ℚ)
    (currentTile : Option TileState) (energyAfter cost : ℚ) : Option ClaimTileResult × World :=
  let created := currentTile.isNone
  let captured := isHostile currentTile uid
  let prof := getPlayerProfile cfg w uid now
  let nextTile : TileState :=
    match currentTile with
    | some t =>
      { t with
        ownerId := some uid
        ownerAllianceTag := prof.1.allianceTag
        ownerAllianceColor := prof.1.allianceColor
        lastUpdate := now }
    | none =>
      { q := q
        r := r
        ownerId := some uid
        ownerAllianceTag := prof.1.allianceTag
        ownerAllianceColor := prof.1.allianceColor
        energy := cfg.initialTileEnergy
        lastUpdate := now
        integrity := cfg.initialTileIntegrity
        level := cfg.initialTileLevel
        tileType := .normal }
  let w1 := persistTileState prof.2 q r nextTile
  let member := (q, r)
  let ck := chunkKeyForTile cfg q r
  let w2 :=
    { w1 with
      chunkTiles := Function.update w1.chunkTiles ck (insert member (w1.chunkTiles ck))
      tilesIndex := insert member w1.tilesIndex
      ownerTiles := Function.update w1.ownerTiles uid (insert member (w1.ownerTiles uid)) }
  let w3 :=
    match currentTile with
    | some t =>
      match t.ownerId with
      | some prev =>
        if prev ≠ uid then
          { w2 with
            ownerTiles := Function.update w2.ownerTiles prev ((w2.ownerTiles prev).erase member)
            leaderboard := Function.update w2.leaderboard prev (w2.leaderboard prev - 1) }
        else w2
      | none => w2
    | none => w2
  let gained := created || captured ||
    (match currentTile with
     | some t => t.ownerId.isNone
     | none => true)
  let w4 :=
    if gained then
      { w3 with leaderboard := Function.update w3.leaderboard uid (w3.leaderboard uid + 1) }
    else w3
  let w5 :=
    if nextTile.tileType = .nexus then { w4 with poiIndex := insert (poiMember nextTile) w4.poiIndex }
    else w4
  let w6 := recordChunkActivity cfg w5 q r (if captured then 3 else 1)
  (some (.ok created captured nextTile energyAfter cost), w6)

/-- `claimTile` after the self-owned early return: range gate, cost, spend
gate, then commit. -/
def claimTileCore (cfg : TileManagerOptions) (w : World) (uid : String) (q r : ℤ) (now : ℚ)
    (currentTile : Option TileState) : Option ClaimTileResult × World :=
  match validateClaimDistance cfg w uid q r with
  | .outOfRange nd =>
    let p := getPlayerEnergy cfg w uid now
    (some (.outOfRange currentTile cfg.maxClaimDistanceFromOwned nd p.1), p.2)
  | .ok =>
    let cost := claimCost cfg currentTile uid
    match spendPlayerEnergy cfg w uid cost now with
    | (.fail energyAfter, w1) => (some (.insufficientEnergy currentTile cost energyAfter), w1)
    | (.ok energyAfter, w1) => claimCommit cfg w1 uid q r now currentTile energyAfter cost

/-- `claimTile(userId, q, r)`.  `none` in the first component models the
exceptions thrown before any mutation (empty user id; `validateCoordinates`
cannot throw on integer coordinates by `pixel_to_hex_hex_to_pixel`). -/
def claimTile (cfg : TileManagerOptions) (w : World) (userId : String) (q r : ℤ) (now : ℚ) :
    Option ClaimTileResult × World :=
  match normalizeUserId userId with
  | none => (none, w)
  | some uid =>
    match loadTile cfg w q r with
    | some t =>
      if t.ownerId = some uid then
        let p := getPlayerEnergy cfg w uid now
        (some (.ok false false t p.1 0), p.2)
      else claimTileCore cfg w uid q r now (some t)
    | none => claimTileCore cfg w uid q r now none

/-- `registerNexus(q, r, level = 3)`.  `none` models the thrown error on a
non-positive level (integrality is built into `ℤ`). -/
def registerNexus (cfg : TileManagerOptions) (w : World) (q r : ℤ) (now : ℚ)
    (level : ℤ := 3) : Option (TileState × World) :=
  if level ≤ 0 then none
  else
    let existing := loadTile cfg w q r
    let nexusTile : TileState :=
      match existing with
      | some t => { t with level := level, tileType := .nexus, lastUpdate := now }
      | none =>
        { q := q
          r := r
          ownerId := none
          ownerAllianceTag := none
          ownerAllianceColor := none
          energy := cfg.initialTileEnergy
          lastUpdate := now
          integrity := cfg.initialTileIntegrity
          level := level
          tileType := .nexus }
    let w1 :=
      match existing with
      | some t =>
        if t.tileType = .nexus then { w with poiIndex := w.poiIndex.erase (poiMember t) }
        else w
      | none => w
    let w2 := persistTileState w1 q r nexusTile
    let ck := chunkKeyForTile cfg q r
    let w3 :=
      { w2 with
        chunkTiles := Function.update w2.chunkTiles ck (insert (q, r) (w2.chunkTiles ck))
        tilesIndex := insert (q, r) w2.tilesIndex
        poiIndex := insert (poiMember nexusTile) w2.poiIndex }
    some (nexusTile, w3)

/-- The `^[A-Z0-9]{3,4}$` test of `normalizeAllianceTag`. -/
def isValidAllianceTag (s : String) : Bool :=
  (3 ≤ s.length && s.length ≤ 4) &&
    s.data.all fun c => ('A' ≤ c && c ≤ 'Z') || ('0' ≤ c && c ≤ '9')

/-- `normalizeAllianceTag(rawTag)`: `some none` = no alliance (null input or
input that trims to empty), `some (some tag)` = the normalized tag, `none` =
the thrown validation error. -/
def normalizeAllianceTag (rawTag : Option String) : Option (Option String) :=
  match rawTag with
  | none => some none
  | some raw =>
    let normalized := strUpper (strTrim raw)
    if normalized = "" then some none
    else if isValidAllianceTag normalized then some (some normalized)
    else none

/-- One step of the `hash * 31 + charCode` accumulator of
`colorFromAllianceTag`, reduced mod 360 as in the source loop. -/
def colorHashStep (hash : ℤ) (c : Char) : ℤ := (hash * 31 + (c.toNat : ℤ)) % 360

/-- `hueToRgb(p, q, t)` from `hslToRgb`. -/
def hueToRgb (p q t : ℚ) : ℚ :=
  let c1 := if t < 0 then t + 1 else t
  let c2 := if c1 > 1 then c1 - 1 else c1
  if c2 < 1 / 6 then p + (q - p) * 6 * c2
  else if c2 < 1 / 2 then q
  else if c2 < 2 / 3 then p + (q - p) * (2 / 3 - c2) * 6
  else p

/-- `hslToRgb(h, s, l)`: channel bytes via `Math.round`. -/
def hslToRgb (h s l : ℚ) : Rgb :=
  if s = 0 then
    let gray := jsRound (l * 255)
    { r := gray, g := gray, b := gray }
  else
    let q := if l < 1 / 2 then l * (1 + s) else l + s - l * s
    let p := 2 * l - q
    { r := jsRound (hueToRgb p q (h + 1 / 3) * 255)
      g := jsRound (hueToRgb p q h * 255)
      b := jsRound (hueToRgb p q (h - 1 / 3) * 255) }

/-- `colorFromAllianceTag(tag)`: deterministic HSL-derived color
(hue = hash mod 360, saturation 68%, lightness 56%). -/
def colorFromAllianceTag (allianceTag : String) : Rgb :=
  let hash := allianceTag.data.foldl colorHashStep 0
  hslToRgb ((hash : ℚ) / 360) (68 / 100) (56 / 100)

/-- `syncAllianceTagToOwnedTiles`: update the two alliance fields on every
tile hash in `owner:<uid>:tiles`.  The source loops over the members in store
order; the updates touch pairwise distinct keys, so the pointwise formulation
is the same.  (A member whose tile hash is missing would be created as a
partial hash by `hSet` in the source; such members never arise from engine
writes and are skipped here.) -/
def syncAllianceTagToOwnedTiles (w : World) (userId : String) (allianceTag : Option String)
    (allianceColor : Option Rgb) : World :=
  { w with
    tiles := fun c =>
      if c ∈ w.ownerTiles userId then
        (w.tiles c).map fun t =>
          { t with ownerAllianceTag := allianceTag, ownerAllianceColor := allianceColor }
      else w.tiles c }

/-- `setAllianceTag(userId, allianceTag)`.  `none` models the thrown
validation errors (empty user id, malformed tag). -/
def setAllianceTag (cfg : TileManagerOptions) (w : World) (userId : String)
    (allianceTag : Option String) (now : ℚ) : Option (PlayerProfilePayload × World) :=
  match normalizeUserId userId with
  | none => none
  | some uid =>
    let st := getOrCreatePlayerState cfg w uid now
    match normalizeAllianceTag allianceTag with
    | none => none
    | some normalizedTag =>
      let allianceColor := normalizedTag.map colorFromAllianceTag
      let nextState :=
        { st.1 with
          allianceTag := normalizedTag
          allianceColor := allianceColor
          lastUpdate := now }
      let w1 := persistPlayerState st.2 nextState
      let w2 := syncAllianceTagToOwnedTiles w1 uid normalizedTag allianceColor
      some ({ userId := uid
              displayName := nextState.displayName
              allianceTag := nextState.allianceTag
              allianceColor := nextState.allianceColor }, w2)

/-- `sameTileState(a, b)`: field-by-field comparison. -/
def sameTileState (a b : TileState) : Bool :=
  a.q == b.q && a.r == b.r && a.ownerId == b.ownerId &&
    a.ownerAllianceTag == b.ownerAllianceTag &&
    a.ownerAllianceColor == b.ownerAllianceColor &&
    a.energy == b.energy && a.lastUpdate == b.lastUpdate &&
    a.integrity == b.integrity && a.level == b.level && a.tileType == b.tileType

/-- `evolveTileState(tile, now, generationMultiplier)`: the per-tile tick.
Returns the evolved tile and `playerEnergyGenerated`. -/
def evolveTileState (cfg : TileManagerOptions) (tile : TileState) (now : ℚ)
    (generationMultiplier : ℚ) : TileState × ℚ :=
  let elapsedMs := max 0 (now - tile.lastUpdate)
  if elapsedMs = 0 then (tile, 0)
  else
    let elapsedSeconds := elapsedMs / 1000
    let elapsedMinutes := elapsedSeconds / 60
    let integrityLoss := elapsedMinutes * cfg.integrityDecayPerMinute
    let nextIntegrity := clamp (round4 (tile.integrity - integrityLoss)) 0 100
    let activeSeconds :=
      if 0 < tile.integrity then
        if cfg.integrityDecayPerMinute ≤ 0 then elapsedSeconds
        else min elapsedSeconds (max 0 (tile.integrity / cfg.integrityDecayPerMinute * 60))
      else 0
    let generatedEnergy := activeSeconds * cfg.energyRechargePerSecond * generationMultiplier
    let nextTileEnergy := clamp (round4 (tile.energy + generatedEnergy)) 0 cfg.maxEnergy
    ({ tile with
        integrity := nextIntegrity
        energy := nextTileEnergy
        lastUpdate := (⌊now⌋ : ℚ) }, generatedEnergy)

/-- The inner loop of `getAllianceBonusMultiplier` over the six neighbors:
find a neighbor owned by a *different* player with the same alliance tag.
Profile reads may lazily create players, so the world is threaded through. -/
def neighborMatchLoop (cfg : TileManagerOptions) (ownerId tag : String) (now : ℚ) :
    World → List (ℤ × ℤ) → ℚ × World
  | w, [] => (1, w)
  | w, n :: rest =>
    match loadTile cfg w n.1 n.2 with
    | none => neighborMatchLoop cfg ownerId tag now w rest
    | some neighborTile =>
      match neighborTile.ownerId with
      | none => neighborMatchLoop cfg ownerId tag now w rest
      | some v =>
        if v = ownerId then neighborMatchLoop cfg ownerId tag now w rest
        else
          let p := getPlayerProfile cfg w v now
          if p.1.allianceTag = some tag then (cfg.allianceNeighborBonusMultiplier, p.2)
          else neighborMatchLoop cfg ownerId tag now p.2 rest

/-- `getAllianceBonusMultiplier(tile, ...)`.  The per-tick caches of the
source are read-through (they always hold the parse of the current store
contents, and repeated profile reads are idempotent), so the model reads the
store directly. -/
def getAllianceBonusMultiplier (cfg : TileManagerOptions) (w : World) (tile : TileState)
    (now : ℚ) : ℚ × World :=
  match tile.ownerId with
  | none => (1, w)
  | some ownerId =>
    let p := getPlayerProfile cfg w ownerId now
    match p.1.allianceTag with
    | none => (1, p.2)
    | some tag => neighborMatchLoop cfg ownerId tag now p.2 (HexMath.get_neighbors tile.q tile.r)

/-- Accumulator of the recharge sweep: the evolving world, the number of
persisted tiles, and the per-owner generated-energy map (`Map<string, number>`
iterates in insertion order, modelled as an association list). -/
structure RechargeAcc where
  world : World
  updatedTiles : ℕ
  ownerEnergyGains : List (String × ℚ)

/-- `ownerEnergyGains.set(ownerId, (previous ?? 0) + generated)`. -/
def addGain : List (String × ℚ) → String → ℚ → List (String × ℚ)
  | [], u, g => [(u, g)]
  | (v, x) :: rest, u, g =>
    if v = u then (v, x + g) :: rest else (v, x) :: addGain rest u g

/-- The body of the `rechargeEnergy` scan loop for one member of
`tiles:index`. -/
def rechargeStep (cfg : TileManagerOptions) (now : ℚ) (acc : RechargeAcc) (member : ℤ × ℤ) :
    RechargeAcc :=
  match loadTile cfg acc.world member.1 member.2 with
  | none => acc
  | some tile =>
    let m := getAllianceBonusMultiplier cfg acc.world tile now
    let evolved := evolveTileState cfg tile now m.1
    let acc1 : RechargeAcc :=
      if sameTileState tile evolved.1 then
        { world := m.2, updatedTiles := acc.updatedTiles
          ownerEnergyGains := acc.ownerEnergyGains }
      else
        { world := persistTileState m.2 member.1 member.2 evolved.1
          updatedTiles := acc.updatedTiles + 1
          ownerEnergyGains := acc.ownerEnergyGains }
    match tile.ownerId with
    | some ownerId =>
      if 0 < evolved.2 then
        { acc1 with ownerEnergyGains := addGain acc1.ownerEnergyGains ownerId evolved.2 }
      else acc1
    | none => acc1

/-- `rechargeEnergy(now)`: sweep the tile index, evolve every tile, persist
the changed ones, then credit each owner's accumulated generated energy.
`members` is the `sScan` enumeration of `tiles:index` (its order is
unspecified by the store, hence a parameter).  Returns the number of updated
tiles together with the final world. -/
def rechargeEnergy (cfg : TileManagerOptions) (w : World) (now : ℚ)
    (members : List (ℤ × ℤ)) : ℕ × World :=
  let acc := members.foldl (rechargeStep cfg now) ⟨w, 0, []⟩
  let finalWorld := acc.ownerEnergyGains.foldl
    (fun wacc g => addPlayerEnergy cfg wacc g.1 g.2 now) acc.world
  (acc.updatedTiles, finalWorld)

end TileManager

/-!
## Projection lemmas

The player-state helpers touch only the `players` field of the world; the
tile persistence helpers touch only `tiles`.  These lemmas let the claim
proofs track exactly which parts of the store each operation can change.
-/

namespace TileManager

@[simp] theorem persistPlayerState_tiles (w : World) (s : PlayerEnergyState) :
    (persistPlayerState w s).tiles = w.tiles := rfl

@[simp] theorem persistPlayerState_ownerTiles (w : World) (s : PlayerEnergyState) :
    (persistPlayerState w s).ownerTiles = w.ownerTiles := rfl

@[simp] theorem persistPlayerState_leaderboard (w : World) (s : PlayerEnergyState) :
    (persistPlayerState w s).leaderboard = w.leaderboard := rfl

@[simp] theorem persistPlayerState_tilesIndex (w : World) (s : PlayerEnergyState) :
    (persistPlayerState w s).tilesIndex = w.tilesIndex := rfl

@[simp] theorem getOrCreatePlayerState_snd_tiles (cfg : TileManagerOptions) (w : World)
    (uid : String) (now : ℚ) : ((getOrCreatePlayerState cfg w uid now).2).tiles = w.tiles := by
  cases h : w.players uid <;> simp [getOrCreatePlayerState, h]

@[simp] theorem getOrCreatePlayerState_snd_ownerTiles (cfg : TileManagerOptions) (w : World)
    (uid : String) (now : ℚ) :
    ((getOrCreatePlayerState cfg w uid now).2).ownerTiles = w.ownerTiles := by
  cases h : w.players uid <;> simp [getOrCreatePlayerState, h]

@[simp] theorem getOrCreatePlayerState_snd_leaderboard (cfg : TileManagerOptions) (w : World)
    (uid : String) (now : ℚ) :
    ((getOrCreatePlayerState cfg w uid now).2).leaderboard = w.leaderboard := by
  cases h : w.players uid <;> simp [getOrCreatePlayerState, h]

@[simp] theorem getPlayerEnergy_snd_tiles (cfg : TileManagerOptions) (w : World)
    (uid : String) (now : ℚ) : ((getPlayerEnergy cfg w uid now).2).tiles = w.tiles := by
  simp [getPlayerEnergy]

@[simp] theorem getPlayerEnergy_snd_ownerTiles (cfg : TileManagerOptions) (w : World)
    (uid : String) (now : ℚ) :
    ((getPlayerEnergy cfg w uid now).2).ownerTiles = w.ownerTiles := by
  simp [getPlayerEnergy]

@[simp] theorem getPlayerEnergy_snd_leaderboard (cfg : TileManagerOptions) (w : World)
    (uid : String) (now : ℚ) :
    ((getPlayerEnergy cfg w uid now).2).leaderboard = w.leaderboard := by
  simp [getPlayerEnergy]

@[simp] theorem getPlayerProfile_snd_tiles (cfg : TileManagerOptions) (w : World)
    (uid : String) (now : ℚ) : ((getPlayerProfile cfg w uid now).2).tiles = w.tiles := by
  simp [getPlayerProfile]

@[simp] theorem getPlayerProfile_snd_ownerTiles (cfg : TileManagerOptions) (w : World)
    (uid : String) (now : ℚ) :
    ((getPlayerProfile cfg w uid now).2).ownerTiles = w.ownerTiles := by
  simp [getPlayerProfile]

@[simp] theorem getPlayerProfile_snd_leaderboard (cfg : TileManagerOptions) (w : World)
    (uid : String) (now : ℚ) :
    ((getPlayerProfile cfg w uid now).2).leaderboard = w.leaderboard := by
  simp [getPlayerProfile]

@[simp] theorem spendPlayerEnergy_snd_tiles (cfg : TileManagerOptions) (w : World)
    (uid : String) (cost now : ℚ) :
    ((spendPlayerEnergy cfg w uid cost now).2).tiles = w.tiles := by
  unfold spendPlayerEnergy
  dsimp only
  split
  · simp
  · split <;> simp

@[simp] theorem spendPlayerEnergy_snd_ownerTiles (cfg : TileManagerOptions) (w : World)
    (uid : String) (cost now : ℚ) :
    ((spendPlayerEnergy cfg w uid cost now).2).ownerTiles = w.ownerTiles := by
  unfold spendPlayerEnergy
  dsimp only
  split
  · simp
  · split <;> simp

@[simp] theorem spendPlayerEnergy_snd_leaderboard (cfg : TileManagerOptions) (w : World)
    (uid : String) (cost now : ℚ) :
    ((spendPlayerEnergy cfg w uid cost now).2).leaderboard = w.leaderboard := by
  unfold spendPlayerEnergy
  dsimp only
  split
  · simp
  · split <;> simp

@[simp] theorem addPlayerEnergy_tiles (cfg : TileManagerOptions) (w : World)
    (uid : String) (gain now : ℚ) :
    (addPlayerEnergy cfg w uid gain now).tiles = w.tiles := by
  unfold addPlayerEnergy
  split <;> simp

@[simp] theorem addPlayerEnergy_ownerTiles (cfg : TileManagerOptions) (w : World)
    (uid : String) (gain now : ℚ) :
    (addPlayerEnergy cfg w uid gain now).ownerTiles = w.ownerTiles := by
  unfold addPlayerEnergy
  split <;> simp

@[simp] theorem addPlayerEnergy_leaderboard (cfg : TileManagerOptions) (w : World)
    (uid : String) (gain now : ℚ) :
    (addPlayerEnergy cfg w uid gain now).leaderboard = w.leaderboard := by
  unfold addPlayerEnergy
  split <;> simp

@[simp] theorem persistTileState_ownerTiles (w : World) (q r : ℤ) (t : TileState) :
    (persistTileState w q r t).ownerTiles = w.ownerTiles := rfl

@[simp] theorem persistTileState_leaderboard (w : World) (q r : ℤ) (t : TileState) :
    (persistTileState w q r t).leaderboard = w.leaderboard := rfl

@[simp] theorem persistTileState_players (w : World) (q r : ℤ) (t : TileState) :
    (persistTileState w q r t).players = w.players := rfl

theorem persistTileState_tiles (w : World) (q r : ℤ) (t : TileState) :
    (persistTileState w q r t).tiles = Function.update w.tiles (q, r)
      (some { t with
        q := q
        r := r
        energy := round4 t.energy
        lastUpdate := (⌊t.lastUpdate⌋ : ℚ)
        integrity := round4 t.integrity
        level := max 1 t.level }) := rfl

end TileManager

namespace TileManager

theorem neighborMatchLoop_snd_tiles (cfg : TileManagerOptions) (ownerId tag : String)
    (now : ℚ) (L : List (ℤ × ℤ)) (w : World) :
    ((neighborMatchLoop cfg ownerId tag now w L).2).tiles = w.tiles := by
  induction L generalizing w with
  | nil => rfl
  | cons n rest ih =>
    simp only [neighborMatchLoop]
    cases hl : loadTile cfg w n.1 n.2 with
    | none => simpa using ih w
    | some nt =>
      cases ho : nt.ownerId with
      | none => simpa [ho] using ih w
      | some v =>
        by_cases hv : v = ownerId
        · simpa [ho, hv] using ih w
        · by_cases ht : (getPlayerProfile cfg w v now).1.allianceTag = some tag
          · simp [ho, hv, ht]
          · simpa [ho, hv, ht] using ih ((getPlayerProfile cfg w v now).2)

theorem getAllianceBonusMultiplier_snd_tiles (cfg : TileManagerOptions) (w : World)
    (tile : TileState) (now : ℚ) :
    ((getAllianceBonusMultiplier cfg w tile now).2).tiles = w.tiles := by
  unfold getAllianceBonusMultiplier
  cases ho : tile.ownerId with
  | none => simp
  | some ownerId =>
    cases ht : (getPlayerProfile cfg w ownerId now).1.allianceTag with
    | none => simp [ht]
    | some tag => simp [ht, neighborMatchLoop_snd_tiles]

theorem loadTile_elim (cfg : TileManagerOptions) (w : World) (q r : ℤ) (t : TileState)
    (h : loadTile cfg w q r = some t) :
    ∃ raw, w.tiles (q, r) = some raw ∧ t = parseTile cfg q r raw := by
  unfold loadTile at h
  cases hw : w.tiles (q, r) with
  | none => rw [hw] at h; exact absurd h (by simp)
  | some raw =>
    rw [hw] at h
    simp only [Option.map_some'] at h
    exact ⟨raw, rfl, ((Option.some.injEq _ _).mp h).symm⟩

theorem loadTile_energy_lb (cfg : TileManagerOptions) (w : World) (q r : ℤ) (t : TileState)
    (h : loadTile cfg w q r = some t) : 0 ≤ t.energy := by
  obtain ⟨raw, -, rfl⟩ := loadTile_elim cfg w q r t h
  exact le_clamp

theorem loadTile_energy_ub (cfg : TileManagerOptions) (w : World) (q r : ℤ) (t : TileState)
    (hM : 0 ≤ cfg.maxEnergy) (h : loadTile cfg w q r = some t) : t.energy ≤ cfg.maxEnergy := by
  obtain ⟨raw, -, rfl⟩ := loadTile_elim cfg w q r t h
  exact clamp_le hM

theorem loadTile_level_pos (cfg : TileManagerOptions) (w : World) (q r : ℤ) (t : TileState)
    (h : loadTile cfg w q r = some t) : 1 ≤ t.level := by
  obtain ⟨raw, -, rfl⟩ := loadTile_elim cfg w q r t h
  exact le_max_left _ _

/-- A tile at zero integrity generates nothing and keeps its energy, whatever
the elapsed time and whatever the generation multiplier. -/
theorem evolveTileState_zero_integrity (cfg : TileManagerOptions) (t : TileState) (now : ℚ)
    (mult : ℚ) (hint : t.integrity = 0) (h4 : Is4dp t.energy)
    (hlo : 0 ≤ t.energy) (hhi : t.energy ≤ cfg.maxEnergy) :
    (evolveTileState cfg t now mult).1.energy = t.energy
      ∧ (evolveTileState cfg t now mult).2 = 0 := by
  unfold evolveTileState
  by_cases he : max 0 (now - t.lastUpdate) = 0
  · simp [he]
  · simp only [if_neg he, hint]
    norm_num
    rw [h4, clamp_eq_self hlo hhi]

/-- Case equation for `rechargeStep` when the member's tile exists. -/
theorem rechargeStep_some (cfg : TileManagerOptions) (now : ℚ) (acc : RechargeAcc)
    (c : ℤ × ℤ) (t : TileState) (hload : loadTile cfg acc.world c.1 c.2 = some t) :
    rechargeStep cfg now acc c =
      (let m := getAllianceBonusMultiplier cfg acc.world t now
       let evolved := evolveTileState cfg t now m.1
       let acc1 : RechargeAcc :=
         if sameTileState t evolved.1 then
           { world := m.2, updatedTiles := acc.updatedTiles
             ownerEnergyGains := acc.ownerEnergyGains }
         else
           { world := persistTileState m.2 c.1 c.2 evolved.1
             updatedTiles := acc.updatedTiles + 1
             ownerEnergyGains := acc.ownerEnergyGains }
       match t.ownerId with
       | some ownerId =>
         if 0 < evolved.2 then
           { acc1 with ownerEnergyGains := addGain acc1.ownerEnergyGains ownerId evolved.2 }
         else acc1
       | none => acc1) := by
  unfold rechargeStep
  rw [hload]

end TileManager

/-- C6: during a recharge tick, a tile whose (parsed) integrity is exactly 0
generates zero energy: its evolved tile keeps exactly the same energy, the
owner-credit accumulator is untouched by this tile (no player-energy credit
attributable to it), and the stored energy after the step is unchanged — for
any elapsed time. -/
theorem tick_zero_integrity_no_generation (cfg : TileManagerOptions) (now : ℚ)
    (acc : TileManager.RechargeAcc) (c : ℤ × ℤ) (t : TileState)
    (hload : TileManager.loadTile cfg acc.world c.1 c.2 = some t)
    (hint : t.integrity = 0) (h4 : Is4dp t.energy) (hM : 0 ≤ cfg.maxEnergy) :
    (∀ mult : ℚ, (TileManager.evolveTileState cfg t now mult).2 = 0
      ∧ (TileManager.evolveTileState cfg t now mult).1.energy = t.energy)
    ∧ (TileManager.rechargeStep cfg now acc c).ownerEnergyGains = acc.ownerEnergyGains
    ∧ ((TileManager.loadTile cfg (TileManager.rechargeStep cfg now acc c).world c.1 c.2).map
        TileState.energy) = some t.energy := by
  have hlo : 0 ≤ t.energy := TileManager.loadTile_energy_lb cfg acc.world c.1 c.2 t hload
  have hhi : t.energy ≤ cfg.maxEnergy :=
    TileManager.loadTile_energy_ub cfg acc.world c.1 c.2 t hM hload
  have hev : ∀ mult : ℚ, (TileManager.evolveTileState cfg t now mult).1.energy = t.energy
      ∧ (TileManager.evolveTileState cfg t now mult).2 = 0 := fun mult =>
    TileManager.evolveTileState_zero_integrity cfg t now mult hint h4 hlo hhi
  rw [TileManager.rechargeStep_some cfg now acc c t hload]
  dsimp only
  set m := TileManager.getAllianceBonusMultiplier cfg acc.world t now with hm
  have hgen : (TileManager.evolveTileState cfg t now m.1).2 = 0 := (hev m.1).2
  have hten : (TileManager.evolveTileState cfg t now m.1).1.energy = t.energy := (hev m.1).1
  have hnotpos : ¬ (0 < (TileManager.evolveTileState cfg t now m.1).2) := by
    rw [hgen]
    exact lt_irrefl 0
  have hmt : (m.2).tiles = acc.world.tiles :=
    TileManager.getAllianceBonusMultiplier_snd_tiles cfg acc.world t now
  refine ⟨fun mult => ⟨(hev mult).2, (hev mult).1⟩, ?_, ?_⟩
  · cases ho : t.ownerId with
    | none => by_cases hsame : TileManager.sameTileState t (TileManager.evolveTileState cfg t now m.1).1 <;>
        simp [hsame]
    | some u => by_cases hsame : TileManager.sameTileState t (TileManager.evolveTileState cfg t now m.1).1 <;>
        simp [hsame, hnotpos]
  · have hworld : ((TileManager.loadTile cfg
        (if TileManager.sameTileState t (TileManager.evolveTileState cfg t now m.1).1 then
          ({ world := m.2, updatedTiles := acc.updatedTiles
             ownerEnergyGains := acc.ownerEnergyGains } : TileManager.RechargeAcc)
        else
          { world := TileManager.persistTileState m.2 c.1 c.2
              (TileManager.evolveTileState cfg t now m.1).1
            updatedTiles := acc.updatedTiles + 1
            ownerEnergyGains := acc.ownerEnergyGains }).world c.1 c.2).map TileState.energy)
        = some t.energy := by
      by_cases hsame : TileManager.sameTileState t (TileManager.evolveTileState cfg t now m.1).1
      · rw [if_pos hsame]
        have hsa : TileManager.loadTile cfg m.2 c.1 c.2
            = TileManager.loadTile cfg acc.world c.1 c.2 := by
          unfold TileManager.loadTile
          rw [hmt]
        rw [hsa, hload]
        rfl
      · rw [if_neg hsame]
        unfold TileManager.loadTile
        rw [TileManager.persistTileState_tiles, Function.update_same]
        simp only [Option.map_some']
        simp only [TileManager.parseTile]
        rw [hten, h4, clamp_eq_self hlo hhi]
    cases ho : t.ownerId with
    | none => simpa using hworld
    | some u => simpa [hnotpos] using hworld

/-- A concrete stored tile at zero integrity (already in parse-normal form). -/
def tile0Integrity : TileState :=
  { q := 0, r := 0, ownerId := none, ownerAllianceTag := none, ownerAllianceColor := none
    energy := 50, lastUpdate := 0, integrity := 0, level := 1, tileType := .normal }

def zeroIntegrityWorld : World :=
  { emptyWorld with
    tiles := fun c => if c = (0, 0) then some tile0Integrity else none
    tilesIndex := {(0, 0)} }

def zeroIntegrityAcc : TileManager.RechargeAcc := ⟨zeroIntegrityWorld, 0, []⟩

theorem tick_zero_integrity_no_generation_witness :
    (TileManager.rechargeStep DEFAULT_OPTIONS 60000 zeroIntegrityAcc (0, 0)).ownerEnergyGains
      = zeroIntegrityAcc.ownerEnergyGains := by
  have e1 : clamp (50 : ℚ) 0 100 = 50 := clamp_eq_self (by norm_num) (by norm_num)
  have e2 : clamp (0 : ℚ) 0 100 = 0 := clamp_eq_self (by norm_num) (by norm_num)
  have hload : TileManager.loadTile DEFAULT_OPTIONS zeroIntegrityAcc.world 0 0
      = some tile0Integrity := by
    simp [TileManager.loadTile, zeroIntegrityAcc, zeroIntegrityWorld, emptyWorld,
      TileManager.parseTile, tile0Integrity, e1, e2, DEFAULT_OPTIONS]
  exact (tick_zero_integrity_no_generation DEFAULT_OPTIONS 60000 zeroIntegrityAcc (0, 0)
    tile0Integrity hload rfl ((is4dp_iff _).mpr ⟨500000, by norm_num [tile0Integrity]⟩)
    (by norm_num [DEFAULT_OPTIONS])).2.1

namespace TileManager

theorem getOrCreatePlayerState_energy_lb (cfg : TileManagerOptions) (w : World) (uid : String)
    (now : ℚ) (h0 : 0 ≤ cfg.initialPlayerEnergy) :
    0 ≤ (getOrCreatePlayerState cfg w uid now).1.energy := by
  cases h : w.players uid with
  | none => simpa [getOrCreatePlayerState, h] using h0
  | some hash =>
    simp only [getOrCreatePlayerState, h, parsePlayerState]
    exact le_clamp

theorem getOrCreatePlayerState_energy_ub (cfg : TileManagerOptions) (w : World) (uid : String)
    (now : ℚ) (h1 : cfg.initialPlayerEnergy ≤ cfg.maxPlayerEnergy)
    (hM : 0 ≤ cfg.maxPlayerEnergy) :
    (getOrCreatePlayerState cfg w uid now).1.energy ≤ cfg.maxPlayerEnergy := by
  cases h : w.players uid with
  | none => simpa [getOrCreatePlayerState, h] using h1
  | some hash =>
    simp only [getOrCreatePlayerState, h, parsePlayerState]
    exact clamp_le hM

/-- Shape of a successful spend: the debit is exact (`round4` and the clamp
are the identity on it) and the player record is persisted with the new
energy. -/
theorem spendPlayerEnergy_ok (cfg : TileManagerOptions) (w : World) (uid : String)
    (cost now : ℚ) (hpos : 0 < cost) (h4c : Is4dp cost)
    (h4e : Is4dp (getOrCreatePlayerState cfg w uid now).1.energy)
    (hle : cost ≤ (getOrCreatePlayerState cfg w uid now).1.energy)
    (hub : (getOrCreatePlayerState cfg w uid now).1.energy ≤ cfg.maxPlayerEnergy) :
    spendPlayerEnergy cfg w uid cost now
      = (.ok ((getOrCreatePlayerState cfg w uid now).1.energy - cost),
          persistPlayerState (getOrCreatePlayerState cfg w uid now).2
            { (getOrCreatePlayerState cfg w uid now).1 with
              energy := (getOrCreatePlayerState cfg w uid now).1.energy - cost
              lastUpdate := now }) := by
  unfold spendPlayerEnergy
  rw [if_neg (not_le.mpr hpos)]
  dsimp only
  rw [if_neg (not_lt.mpr hle)]
  have h4 : round4 ((getOrCreatePlayerState cfg w uid now).1.energy - cost)
      = (getOrCreatePlayerState cfg w uid now).1.energy - cost := h4e.sub h4c
  rw [h4, clamp_eq_self (by linarith) (by linarith)]

/-- `claimTile` reduced to `claimTileCore` when the target is not self-owned
(and the user id is non-empty). -/
theorem claimTile_not_self (cfg : TileManagerOptions) (w : World) (uid : String) (q r : ℤ)
    (now : ℚ) (hu : uid ≠ "")
    (hself : ∀ t, loadTile cfg w q r = some t → t.ownerId ≠ some uid) :
    claimTile cfg w uid q r now = claimTileCore cfg w uid q r now (loadTile cfg w q r) := by
  unfold claimTile normalizeUserId
  rw [if_neg hu]
  cases h : loadTile cfg w q r with
  | none => simp
  | some t => simp [hself t h]

/-- `claimTileCore` reduced to `claimCommit` when the range gate and the
spend gate both pass. -/
theorem claimTileCore_ok_spend (cfg : TileManagerOptions) (w : World) (uid : String)
    (q r : ℤ) (now : ℚ) (currentTile : Option TileState) (eA : ℚ) (w1 : World)
    (hrange : validateClaimDistance cfg w uid q r = .ok)
    (hspend : spendPlayerEnergy cfg w uid (claimCost cfg currentTile uid) now = (.ok eA, w1)) :
    claimTileCore cfg w uid q r now currentTile
      = claimCommit cfg w1 uid q r now currentTile eA (claimCost cfg currentTile uid) := by
  unfold claimTileCore
  rw [hrange]
  dsimp only
  rw [hspend]

/-- First component of `claimCommit`: the success record. -/
theorem claimCommit_fst (cfg : TileManagerOptions) (w : World) (uid : String) (q r : ℤ)
    (now : ℚ) (currentTile : Option TileState) (eA cost : ℚ) :
    (claimCommit cfg w uid q r now currentTile eA cost).1
      = some (.ok currentTile.isNone (isHostile currentTile uid)
          (match currentTile with
           | some t =>
             { t with
               ownerId := some uid
               ownerAllianceTag := (getPlayerProfile cfg w uid now).1.allianceTag
               ownerAllianceColor := (getPlayerProfile cfg w uid now).1.allianceColor
               lastUpdate := now }
           | none =>
             { q := q
               r := r
               ownerId := some uid
               ownerAllianceTag := (getPlayerProfile cfg w uid now).1.allianceTag
               ownerAllianceColor := (getPlayerProfile cfg w uid now).1.allianceColor
               energy := cfg.initialTileEnergy
               lastUpdate := now
               integrity := cfg.initialTileIntegrity
               level := cfg.initialTileLevel
               tileType := .normal }) eA cost) := rfl

end TileManager

/-- C1: when `claimTile` reaches the cost computation (target not self-owned,
range gate passed) with enough energy, the energy cost is the tile's level
times `hostileClaimCostMultiplier` (50 with the defaults used here) if the
tile exists and is owned by another player, and `freeClaimCost` (10)
otherwise; the success record carries exactly that cost, and `energyAfter` is
the player's energy immediately before the claim minus that cost. -/
theorem claim_cost_and_debit (w : World) (uid : String) (q r : ℤ) (now : ℚ)
    (hu : uid ≠ "")
    (hself : ∀ t, TileManager.loadTile DEFAULT_OPTIONS w q r = some t → t.ownerId ≠ some uid)
    (hrange : TileManager.validateClaimDistance DEFAULT_OPTIONS w uid q r = .ok)
    (h4e : Is4dp (TileManager.getOrCreatePlayerState DEFAULT_OPTIONS w uid now).1.energy)
    (hle : TileManager.claimCost DEFAULT_OPTIONS (TileManager.loadTile DEFAULT_OPTIONS w q r) uid
        ≤ (TileManager.getOrCreatePlayerState DEFAULT_OPTIONS w uid now).1.energy) :
    (∃ created captured tile w',
      TileManager.claimTile DEFAULT_OPTIONS w uid q r now
        = (some (.ok created captured tile
            ((TileManager.getOrCreatePlayerState DEFAULT_OPTIONS w uid now).1.energy
              - TileManager.claimCost DEFAULT_OPTIONS
                  (TileManager.loadTile DEFAULT_OPTIONS w q r) uid)
            (TileManager.claimCost DEFAULT_OPTIONS
              (TileManager.loadTile DEFAULT_OPTIONS w q r) uid)), w'))
    ∧ TileManager.claimCost DEFAULT_OPTIONS (TileManager.loadTile DEFAULT_OPTIONS w q r) uid
        = (match TileManager.loadTile DEFAULT_OPTIONS w q r with
           | some t =>
             match t.ownerId with
             | some _ => (t.level : ℚ) * 50
             | none => (10 : ℚ)
           | none => (10 : ℚ)) := by
  have hformula : TileManager.claimCost DEFAULT_OPTIONS
      (TileManager.loadTile DEFAULT_OPTIONS w q r) uid
      = (match TileManager.loadTile DEFAULT_OPTIONS w q r with
         | some t =>
           match t.ownerId with
           | some _ => (t.level : ℚ) * 50
           | none => (10 : ℚ)
         | none => (10 : ℚ)) := by
    cases hct : TileManager.loadTile DEFAULT_OPTIONS w q r with
    | none => simp [TileManager.claimCost, DEFAULT_OPTIONS]
    | some t =>
      cases ho : t.ownerId with
      | none => simp [TileManager.claimCost, ho, DEFAULT_OPTIONS]
      | some v =>
        have hvne : v ≠ uid := by
          intro hv
          exact hself t hct (by rw [ho, hv])
        simp [TileManager.claimCost, ho, hvne, DEFAULT_OPTIONS]
  refine ⟨?_, hformula⟩
  have hpos : 0 < TileManager.claimCost DEFAULT_OPTIONS
      (TileManager.loadTile DEFAULT_OPTIONS w q r) uid := by
    rw [hformula]
    cases hct : TileManager.loadTile DEFAULT_OPTIONS w q r with
    | none => norm_num
    | some t =>
      cases ho : t.ownerId with
      | none => norm_num [ho]
      | some v =>
        have hl : (1 : ℤ) ≤ t.level := TileManager.loadTile_level_pos _ _ _ _ _ hct
        have hlp : (0 : ℚ) < (t.level : ℚ) := by
          exact_mod_cast lt_of_lt_of_le Int.zero_lt_one hl
        simp only [ho]
        exact mul_pos hlp (by norm_num)
  have h4c : Is4dp (TileManager.claimCost DEFAULT_OPTIONS
      (TileManager.loadTile DEFAULT_OPTIONS w q r) uid) := by
    rw [hformula]
    cases hct : TileManager.loadTile DEFAULT_OPTIONS w q r with
    | none => exact (is4dp_iff _).mpr ⟨100000, by norm_num⟩
    | some t =>
      cases ho : t.ownerId with
      | none =>
        simp only [ho]
        exact (is4dp_iff _).mpr ⟨100000, by norm_num⟩
      | some v =>
        simp only [ho]
        have hcast : ((t.level : ℚ)) * 50 = ((t.level * 50 : ℤ) : ℚ) := by push_cast; ring
        rw [hcast]
        exact Is4dp.intCast _
  have hub : (TileManager.getOrCreatePlayerState DEFAULT_OPTIONS w uid now).1.energy
      ≤ DEFAULT_OPTIONS.maxPlayerEnergy :=
    TileManager.getOrCreatePlayerState_energy_ub DEFAULT_OPTIONS w uid now
      (by norm_num [DEFAULT_OPTIONS]) (by norm_num [DEFAULT_OPTIONS])
  have hspend := TileManager.spendPlayerEnergy_ok DEFAULT_OPTIONS w uid
    (TileManager.claimCost DEFAULT_OPTIONS (TileManager.loadTile DEFAULT_OPTIONS w q r) uid)
    now hpos h4c h4e hle hub
  rw [TileManager.claimTile_not_self DEFAULT_OPTIONS w uid q r now hu hself,
    TileManager.claimTileCore_ok_spend DEFAULT_OPTIONS w uid q r now
      (TileManager.loadTile DEFAULT_OPTIONS w q r) _ _ hrange hspend]
  exact ⟨_, _, _, _, Prod.ext (TileManager.claimCommit_fst _ _ _ _ _ _ _ _ _) rfl⟩

/-- Witness for `claim_cost_and_debit`: first claim of `a` on the empty
world; the tile does not exist, so the cost is the free claim cost. -/
theorem claim_cost_and_debit_witness :
    TileManager.claimCost DEFAULT_OPTIONS
        (TileManager.loadTile DEFAULT_OPTIONS emptyWorld 0 0) "a"
      = (match TileManager.loadTile DEFAULT_OPTIONS emptyWorld 0 0 with
         | some t =>
           match t.ownerId with
           | some _ => (t.level : ℚ) * 50
           | none => (10 : ℚ)
         | none => (10 : ℚ)) :=
  (claim_cost_and_debit emptyWorld "a" 0 0 0 (by decide)
    (fun t h => by simp [TileManager.loadTile, emptyWorld] at h)
    (by simp [TileManager.validateClaimDistance, emptyWorld])
    (by
      simp only [TileManager.getOrCreatePlayerState, emptyWorld]
      exact (is4dp_iff _).mpr ⟨1000000, by norm_num [DEFAULT_OPTIONS]⟩)
    (by
      simp only [TileManager.claimCost, TileManager.loadTile, emptyWorld,
        TileManager.getOrCreatePlayerState, DEFAULT_OPTIONS]
      norm_num)).2

namespace TileManager

/-- Shape of a failed spend (insufficient energy): the stored player state is
only read (and lazily created when absent), never debited. -/
theorem spendPlayerEnergy_fail (cfg : TileManagerOptions) (w : World) (uid : String)
    (cost now : ℚ) (hpos : 0 < cost)
    (hlt : (getOrCreatePlayerState cfg w uid now).1.energy < cost) :
    spendPlayerEnergy cfg w uid cost now
      = (.fail (round4 (getOrCreatePlayerState cfg w uid now).1.energy),
          (getOrCreatePlayerState cfg w uid now).2) := by
  unfold spendPlayerEnergy
  rw [if_neg (not_le.mpr hpos)]
  dsimp only
  rw [if_pos hlt]

theorem getOrCreatePlayerState_existing (cfg : TileManagerOptions) (w : World) (uid : String)
    (now : ℚ) (ph : PlayerEnergyState) (h : w.players uid = some ph) :
    getOrCreatePlayerState cfg w uid now = (parsePlayerState cfg uid ph, w) := by
  simp [getOrCreatePlayerState, h]

/-- `claimTileCore` on a failed spend returns the structured
`insufficient-energy` record with the cost and the current player energy. -/
theorem claimTileCore_spend_fail (cfg : TileManagerOptions) (w : World) (uid : String)
    (q r : ℤ) (now : ℚ) (currentTile : Option TileState) (eA : ℚ) (w1 : World)
    (hrange : validateClaimDistance cfg w uid q r = .ok)
    (hspend : spendPlayerEnergy cfg w uid (claimCost cfg currentTile uid) now
      = (.fail eA, w1)) :
    claimTileCore cfg w uid q r now currentTile
      = (some (.insufficientEnergy currentTile (claimCost cfg currentTile uid) eA), w1) := by
  unfold claimTileCore
  rw [hrange]
  dsimp only
  rw [hspend]

/-- With the default options the claim cost is always positive (10 or at
least 50). -/
theorem claimCost_default_pos (w : World) (q r : ℤ) (uid : String) :
    0 < claimCost DEFAULT_OPTIONS (loadTile DEFAULT_OPTIONS w q r) uid := by
  unfold claimCost
  cases hct : loadTile DEFAULT_OPTIONS w q r with
  | none => norm_num [DEFAULT_OPTIONS]
  | some t =>
    cases ho : t.ownerId with
    | none => norm_num [ho, DEFAULT_OPTIONS]
    | some v =>
      have hl : (1 : ℤ) ≤ t.level := loadTile_level_pos _ _ _ _ _ hct
      have hlp : (0 : ℚ) < (t.level : ℚ) := by
        exact_mod_cast lt_of_lt_of_le Int.zero_lt_one hl
      simp only [ho]
      by_cases hv : v ≠ uid
      · rw [if_pos hv]
        simp only [Option.map_some', Option.getD_some, DEFAULT_OPTIONS]
        exact mul_pos hlp (by norm_num)
      · rw [if_neg hv]
        norm_num [DEFAULT_OPTIONS]

end TileManager

/-- C9: a successful capture preserves the tile's energy, integrity, level
and tileType (so a nexus stays a nexus); only `ownerId`, the two
owner-alliance fields and `lastUpdate` change — the result tile is literally
the loaded tile with just those four fields replaced. -/
theorem claim_capture_preserves_tile (w : World) (uid : String) (q r : ℤ) (now : ℚ)
    (t : TileState) (v : String)
    (hu : uid ≠ "")
    (hload : TileManager.loadTile DEFAULT_OPTIONS w q r = some t)
    (howner : t.ownerId = some v)
    (hv : v ≠ uid)
    (hrange : TileManager.validateClaimDistance DEFAULT_OPTIONS w uid q r = .ok)
    (h4e : Is4dp (TileManager.getOrCreatePlayerState DEFAULT_OPTIONS w uid now).1.energy)
    (hle : (t.level : ℚ) * 50
        ≤ (TileManager.getOrCreatePlayerState DEFAULT_OPTIONS w uid now).1.energy) :
    ∃ tg col,
      (TileManager.claimTile DEFAULT_OPTIONS w uid q r now).1
        = some (.ok false true
            { t with
              ownerId := some uid
              ownerAllianceTag := tg
              ownerAllianceColor := col
              lastUpdate := now }
            ((TileManager.getOrCreatePlayerState DEFAULT_OPTIONS w uid now).1.energy
              - (t.level : ℚ) * 50)
            ((t.level : ℚ) * 50)) := by
  have hself : ∀ t', TileManager.loadTile DEFAULT_OPTIONS w q r = some t'
      → t'.ownerId ≠ some uid := by
    intro t' ht'
    rw [hload] at ht'
    obtain rfl := (Option.some.injEq _ _).mp ht'.symm
    rw [howner]
    intro hc
    exact hv ((Option.some.injEq _ _).mp hc)
  have hcost : TileManager.claimCost DEFAULT_OPTIONS (TileManager.loadTile DEFAULT_OPTIONS w q r)
      uid = (t.level : ℚ) * 50 := by
    rw [hload]
    simp [TileManager.claimCost, howner, hv, DEFAULT_OPTIONS]
  have hl : (1 : ℤ) ≤ t.level := TileManager.loadTile_level_pos _ _ _ _ _ hload
  have hlp : (0 : ℚ) < (t.level : ℚ) := by
    exact_mod_cast lt_of_lt_of_le Int.zero_lt_one hl
  have hpos : 0 < TileManager.claimCost DEFAULT_OPTIONS
      (TileManager.loadTile DEFAULT_OPTIONS w q r) uid := by
    rw [hcost]
    exact mul_pos hlp (by norm_num)
  have h4c : Is4dp (TileManager.claimCost DEFAULT_OPTIONS
      (TileManager.loadTile DEFAULT_OPTIONS w q r) uid) := by
    rw [hcost]
    have hcast : ((t.level : ℚ)) * 50 = ((t.level * 50 : ℤ) : ℚ) := by push_cast; ring
    rw [hcast]
    exact Is4dp.intCast _
  have hub : (TileManager.getOrCreatePlayerState DEFAULT_OPTIONS w uid now).1.energy
      ≤ DEFAULT_OPTIONS.maxPlayerEnergy :=
    TileManager.getOrCreatePlayerState_energy_ub DEFAULT_OPTIONS w uid now
      (by norm_num [DEFAULT_OPTIONS]) (by norm_num [DEFAULT_OPTIONS])
  have hspend := TileManager.spendPlayerEnergy_ok DEFAULT_OPTIONS w uid
    (TileManager.claimCost DEFAULT_OPTIONS (TileManager.loadTile DEFAULT_OPTIONS w q r) uid)
    now hpos h4c h4e (by rw [hcost]; exact hle) hub
  rw [TileManager.claimTile_not_self DEFAULT_OPTIONS w uid q r now hu hself,
    TileManager.claimTileCore_ok_spend DEFAULT_OPTIONS w uid q r now
      (TileManager.loadTile DEFAULT_OPTIONS w q r) _ _ hrange hspend]
  rw [TileManager.claimCommit_fst]
  have hisNone : (TileManager.loadTile DEFAULT_OPTIONS w q r).isNone = false := by
    rw [hload]; rfl
  have hhost : TileManager.isHostile (TileManager.loadTile DEFAULT_OPTIONS w q r) uid = true := by
    rw [hload]
    simp [TileManager.isHostile, howner, bne_iff_ne, hv]
  rw [hcost, hisNone, hhost]
  simp only [hload]
  exact ⟨_, _, rfl⟩

/-- A stored hostile tile for the capture witness: owned by `b`, already in
parse-normal form. -/
def hostileTileB : TileState :=
  { q := 0, r := 0, ownerId := some "b", ownerAllianceTag := none, ownerAllianceColor := none
    energy := 70, lastUpdate := 0, integrity := 90, level := 1, tileType := .normal }

def captureWorld : World :=
  { emptyWorld with
    tiles := fun c => if c = (0, 0) then some hostileTileB else none
    tilesIndex := {(0, 0)}
    ownerTiles := fun u => if u = "b" then {(0, 0)} else ∅
    leaderboard := fun u => if u = "b" then 1 else 0 }

theorem claim_capture_preserves_tile_witness :
    ∃ tg col,
      (TileManager.claimTile DEFAULT_OPTIONS captureWorld "a" 0 0 5).1
        = some (.ok false true
            { hostileTileB with
              ownerId := some "a"
              ownerAllianceTag := tg
              ownerAllianceColor := col
              lastUpdate := 5 }
            ((TileManager.getOrCreatePlayerState DEFAULT_OPTIONS captureWorld "a" 5).1.energy
              - (hostileTileB.level : ℚ) * 50)
            ((hostileTileB.level : ℚ) * 50)) := by
  have e1 : clamp (70 : ℚ) 0 100 = 70 := clamp_eq_self (by norm_num) (by norm_num)
  have e2 : clamp (90 : ℚ) 0 100 = 90 := clamp_eq_self (by norm_num) (by norm_num)
  have hload : TileManager.loadTile DEFAULT_OPTIONS captureWorld 0 0 = some hostileTileB := by
    simp [TileManager.loadTile, captureWorld, emptyWorld, TileManager.parseTile,
      hostileTileB, e1, e2, DEFAULT_OPTIONS, show strTrim "b" ≠ "" by decide]
  exact claim_capture_preserves_tile captureWorld "a" 0 0 5 hostileTileB "b"
    (by decide) hload rfl (by decide)
    (by simp [TileManager.validateClaimDistance, captureWorld, emptyWorld])
    (by
      have : TileManager.getOrCreatePlayerState DEFAULT_OPTIONS captureWorld "a" 5
          = ({ userId := "a", displayName := "a", allianceTag := none, allianceColor := none
               energy := DEFAULT_OPTIONS.initialPlayerEnergy, lastUpdate := 5 },
             TileManager.persistPlayerState captureWorld
               { userId := "a", displayName := "a", allianceTag := none, allianceColor := none
                 energy := DEFAULT_OPTIONS.initialPlayerEnergy, lastUpdate := 5 }) := by
        simp [TileManager.getOrCreatePlayerState, captureWorld, emptyWorld]
      rw [this]
      exact (is4dp_iff _).mpr ⟨1000000, by norm_num [DEFAULT_OPTIONS]⟩)
    (by
      have : TileManager.getOrCreatePlayerState DEFAULT_OPTIONS captureWorld "a" 5
          = ({ userId := "a", displayName := "a", allianceTag := none, allianceColor := none
               energy := DEFAULT_OPTIONS.initialPlayerEnergy, lastUpdate := 5 },
             TileManager.persistPlayerState captureWorld
               { userId := "a", displayName := "a", allianceTag := none, allianceColor := none
                 energy := DEFAULT_OPTIONS.initialPlayerEnergy, lastUpdate := 5 }) := by
        simp [TileManager.getOrCreatePlayerState, captureWorld, emptyWorld]
      rw [this]
      norm_num [hostileTileB, DEFAULT_OPTIONS])

/-- C4 (amended): when the computed claim cost exceeds the player's current
energy, `claimTile` returns the structured `insufficient-energy` failure with
`requiredEnergy` equal to the cost and `playerEnergy` equal to the player's
current stored energy, and — provided the player record already exists — the
world is completely unchanged (the tile hash, every index, the leaderboard
and the player state are all the same).  A first-ever-observed player is
lazily created with initial energy by the spend-gate read; that creation is
the only mutation on this path (see the counterexample). -/
theorem claim_insufficient_energy_no_mutation (w : World) (uid : String) (q r : ℤ)
    (now : ℚ) (ph : PlayerEnergyState)
    (hu : uid ≠ "")
    (hplayer : w.players uid = some ph)
    (hself : ∀ t, TileManager.loadTile DEFAULT_OPTIONS w q r = some t → t.ownerId ≠ some uid)
    (hrange : TileManager.validateClaimDistance DEFAULT_OPTIONS w uid q r = .ok)
    (h4e : Is4dp (TileManager.parsePlayerState DEFAULT_OPTIONS uid ph).energy)
    (hlt : (TileManager.parsePlayerState DEFAULT_OPTIONS uid ph).energy
        < TileManager.claimCost DEFAULT_OPTIONS (TileManager.loadTile DEFAULT_OPTIONS w q r) uid) :
    TileManager.claimTile DEFAULT_OPTIONS w uid q r now
      = (some (.insufficientEnergy (TileManager.loadTile DEFAULT_OPTIONS w q r)
          (TileManager.claimCost DEFAULT_OPTIONS (TileManager.loadTile DEFAULT_OPTIONS w q r) uid)
          (TileManager.parsePlayerState DEFAULT_OPTIONS uid ph).energy), w) := by
  have hget : TileManager.getOrCreatePlayerState DEFAULT_OPTIONS w uid now
      = (TileManager.parsePlayerState DEFAULT_OPTIONS uid ph, w) :=
    TileManager.getOrCreatePlayerState_existing DEFAULT_OPTIONS w uid now ph hplayer
  have hpos := TileManager.claimCost_default_pos w q r uid
  have hspend := TileManager.spendPlayerEnergy_fail DEFAULT_OPTIONS w uid
    (TileManager.claimCost DEFAULT_OPTIONS (TileManager.loadTile DEFAULT_OPTIONS w q r) uid)
    now hpos (by rw [hget]; exact hlt)
  rw [hget] at hspend
  dsimp only at hspend
  rw [h4e] at hspend
  rw [TileManager.claimTile_not_self DEFAULT_OPTIONS w uid q r now hu hself,
    TileManager.claimTileCore_spend_fail DEFAULT_OPTIONS w uid q r now
      (TileManager.loadTile DEFAULT_OPTIONS w q r) _ _ hrange hspend]

/-- A stored player record with too little energy (already in parse-normal
form). -/
def poorPlayerA : PlayerEnergyState :=
  { userId := "a", displayName := "a", allianceTag := none, allianceColor := none
    energy := 20, lastUpdate := 0 }

def insufficientWorld : World :=
  { emptyWorld with
    tiles := fun c => if c = (0, 0) then some hostileTileB else none
    tilesIndex := {(0, 0)}
    ownerTiles := fun u => if u = "b" then {(0, 0)} else ∅
    leaderboard := fun u => if u = "b" then 1 else 0
    players := fun u => if u = "a" then some poorPlayerA else none }

theorem claim_insufficient_energy_no_mutation_witness :
    TileManager.claimTile DEFAULT_OPTIONS insufficientWorld "a" 0 0 7
      = (some (.insufficientEnergy (TileManager.loadTile DEFAULT_OPTIONS insufficientWorld 0 0)
          (TileManager.claimCost DEFAULT_OPTIONS
            (TileManager.loadTile DEFAULT_OPTIONS insufficientWorld 0 0) "a")
          (TileManager.parsePlayerState DEFAULT_OPTIONS "a" poorPlayerA).energy),
        insufficientWorld) := by
  have e1 : clamp (70 : ℚ) 0 100 = 70 := clamp_eq_self (by norm_num) (by norm_num)
  have e2 : clamp (90 : ℚ) 0 100 = 90 := clamp_eq_self (by norm_num) (by norm_num)
  have e3 : clamp (20 : ℚ) 0 1000 = 20 := clamp_eq_self (by norm_num) (by norm_num)
  have hload : TileManager.loadTile DEFAULT_OPTIONS insufficientWorld 0 0
      = some hostileTileB := by
    simp [TileManager.loadTile, insufficientWorld, emptyWorld, TileManager.parseTile,
      hostileTileB, e1, e2, DEFAULT_OPTIONS, show strTrim "b" ≠ "" by decide]
  have hparse : (TileManager.parsePlayerState DEFAULT_OPTIONS "a" poorPlayerA).energy = 20 := by
    simp [TileManager.parsePlayerState, poorPlayerA, e3, DEFAULT_OPTIONS]
  exact claim_insufficient_energy_no_mutation insufficientWorld "a" 0 0 7 poorPlayerA
    (by decide) (by simp [insufficientWorld])
    (by
      intro t ht
      rw [hload] at ht
      obtain rfl := (Option.some.injEq _ _).mp ht.symm
      simp [hostileTileB])
    (by simp [TileManager.validateClaimDistance, insufficientWorld, emptyWorld])
    (by rw [hparse]; exact (is4dp_iff _).mpr ⟨200000, by norm_num⟩)
    (by
      rw [hparse, hload]
      simp only [TileManager.claimCost]
      norm_num [hostileTileB, DEFAULT_OPTIONS, show "b" ≠ "a" by decide])

/-- A level-3 hostile tile (capture cost 150 with the defaults). -/
def hostileTile3 : TileState :=
  { q := 0, r := 0, ownerId := some "b", ownerAllianceTag := none, ownerAllianceColor := none
    energy := 70, lastUpdate := 0, integrity := 90, level := 3, tileType := .normal }

def lazyCreationWorld : World :=
  { emptyWorld with
    tiles := fun c => if c = (0, 0) then some hostileTile3 else none
    tilesIndex := {(0, 0)}
    ownerTiles := fun u => if u = "b" then {(0, 0)} else ∅
    leaderboard := fun u => if u = "b" then 1 else 0 }

/-- The player record `getOrCreatePlayerState` lazily creates for `c`. -/
def freshPlayerC : PlayerEnergyState :=
  { userId := "c", displayName := "c", allianceTag := none, allianceColor := none
    energy := DEFAULT_OPTIONS.initialPlayerEnergy, lastUpdate := 9 }

/-- Counterexample to C4 as stated: an insufficient-energy claim by a player
with no stored record lazily creates that record (with the initial energy),
so the player's stored state is not the same after the call: the claim's
`no state is mutated` does not cover first-ever-observed players. -/
theorem claim_insufficient_energy_creates_player :
    ∃ st, TileManager.claimTile DEFAULT_OPTIONS lazyCreationWorld "c" 0 0 9
        = (some (.insufficientEnergy (some hostileTile3)
            150 100), st)
      ∧ st.players "c" ≠ lazyCreationWorld.players "c"
      ∧ lazyCreationWorld.players "c" = none := by
  have e1 : clamp (70 : ℚ) 0 100 = 70 := clamp_eq_self (by norm_num) (by norm_num)
  have e2 : clamp (90 : ℚ) 0 100 = 90 := clamp_eq_self (by norm_num) (by norm_num)
  have hload : TileManager.loadTile DEFAULT_OPTIONS lazyCreationWorld 0 0
      = some hostileTile3 := by
    simp [TileManager.loadTile, lazyCreationWorld, emptyWorld, TileManager.parseTile,
      hostileTile3, e1, e2, DEFAULT_OPTIONS, show strTrim "b" ≠ "" by decide]
  have hself : ∀ t, TileManager.loadTile DEFAULT_OPTIONS lazyCreationWorld 0 0 = some t
      → t.ownerId ≠ some "c" := by
    intro t ht
    rw [hload] at ht
    obtain rfl := (Option.some.injEq _ _).mp ht.symm
    simp [hostileTile3]
  have hget : TileManager.getOrCreatePlayerState DEFAULT_OPTIONS lazyCreationWorld "c" 9
      = (freshPlayerC, TileManager.persistPlayerState lazyCreationWorld freshPlayerC) := by
    simp [TileManager.getOrCreatePlayerState, lazyCreationWorld, emptyWorld, freshPlayerC,
      DEFAULT_OPTIONS]
  have hcost : TileManager.claimCost DEFAULT_OPTIONS
      (TileManager.loadTile DEFAULT_OPTIONS lazyCreationWorld 0 0) "c" = 150 := by
    rw [hload]
    simp only [TileManager.claimCost]
    norm_num [hostileTile3, DEFAULT_OPTIONS, show "b" ≠ "c" by decide]
  have hspend := TileManager.spendPlayerEnergy_fail DEFAULT_OPTIONS lazyCreationWorld "c"
    (TileManager.claimCost DEFAULT_OPTIONS
      (TileManager.loadTile DEFAULT_OPTIONS lazyCreationWorld 0 0) "c") 9
    (by rw [hcost]; norm_num)
    (by rw [hget, hcost]; norm_num [freshPlayerC, DEFAULT_OPTIONS])
  rw [hget] at hspend
  dsimp only at hspend
  have h100 : round4 freshPlayerC.energy = 100 := by
    have he : freshPlayerC.energy = 100 := by norm_num [freshPlayerC, DEFAULT_OPTIONS]
    rw [he]
    exact (is4dp_iff _).mpr ⟨1000000, by norm_num⟩
  rw [h100] at hspend
  refine ⟨TileManager.persistPlayerState lazyCreationWorld freshPlayerC, ?_, ?_, ?_⟩
  · rw [TileManager.claimTile_not_self DEFAULT_OPTIONS lazyCreationWorld "c" 0 0 9
      (by decide) hself,
      TileManager.claimTileCore_spend_fail DEFAULT_OPTIONS lazyCreationWorld "c" 0 0 9
        (TileManager.loadTile DEFAULT_OPTIONS lazyCreationWorld 0 0) _ _
        (by simp [TileManager.validateClaimDistance, lazyCreationWorld, emptyWorld]) hspend]
    rw [hcost, hload]
  · simp [TileManager.persistPlayerState, lazyCreationWorld, emptyWorld, freshPlayerC]
  · simp [lazyCreationWorld, emptyWorld]

namespace TileManager

/-- `claimTileCore` on an out-of-range check returns the structured failure
with the configured max distance and the computed nearest distance. -/
theorem claimTileCore_outOfRange (cfg : TileManagerOptions) (w : World) (uid : String)
    (q r : ℤ) (now : ℚ) (currentTile : Option TileState) (nd : Option ℤ)
    (hrange : validateClaimDistance cfg w uid q r = .outOfRange nd) :
    claimTileCore cfg w uid q r now currentTile
      = (some (.outOfRange currentTile cfg.maxClaimDistanceFromOwned nd
          (getPlayerEnergy cfg w uid now).1), (getPlayerEnergy cfg w uid now).2) := by
  unfold claimTileCore
  rw [hrange]

/-- When the range gate passes, the claim result is never `out-of-range`. -/
theorem claimTileCore_ok_not_outOfRange (cfg : TileManagerOptions) (w : World) (uid : String)
    (q r : ℤ) (now : ℚ) (currentTile : Option TileState)
    (hrange : validateClaimDistance cfg w uid q r = .ok) :
    ∀ t0 md nd pe, (claimTileCore cfg w uid q r now currentTile).1
      ≠ some (.outOfRange t0 md nd pe) := by
  intro t0 md nd pe
  unfold claimTileCore
  rw [hrange]
  dsimp only
  rcases hsp : spendPlayerEnergy cfg w uid (claimCost cfg currentTile uid) now with ⟨sr, w'⟩
  cases sr with
  | fail eA => simp
  | ok eA =>
    dsimp only
    rw [claimCommit_fst]
    simp

end TileManager

/-- C3: the claim range gate.  If the player owns no tiles, the gate is
bypassed and the claim proceeds (the result is never `out-of-range`); if the
player owns at least one tile and every owned tile is strictly farther than
`maxClaimDistanceFromOwned` (8 by default) from the target, the claim fails
`out-of-range` with `maxDistance = maxClaimDistanceFromOwned` and
`nearestDistance` equal to the minimum hex distance from the target to any
owned tile.  (`w1` exercises the first case and `w2` the second.) -/
theorem claim_range_gate (w1 w2 : World) (uid : String) (q r : ℤ) (now : ℚ)
    (hu : uid ≠ "")
    (hempty : w1.ownerTiles uid = ∅)
    (hne : (w2.ownerTiles uid).Nonempty)
    (hfar : ∀ c ∈ w2.ownerTiles uid,
        DEFAULT_OPTIONS.maxClaimDistanceFromOwned < HexMath.hex_distance (q, r) c)
    (hself2 : ∀ t, TileManager.loadTile DEFAULT_OPTIONS w2 q r = some t
        → t.ownerId ≠ some uid) :
    (∀ t0 md nd pe, (TileManager.claimTile DEFAULT_OPTIONS w1 uid q r now).1
        ≠ some (.outOfRange t0 md nd pe))
    ∧ ∃ pe w',
        TileManager.claimTile DEFAULT_OPTIONS w2 uid q r now
          = (some (.outOfRange (TileManager.loadTile DEFAULT_OPTIONS w2 q r)
              DEFAULT_OPTIONS.maxClaimDistanceFromOwned
              (some (((w2.ownerTiles uid).image fun c => HexMath.hex_distance (q, r) c).min'
                (hne.image _))) pe), w') := by
  constructor
  · intro t0 md nd pe
    have hok : TileManager.validateClaimDistance DEFAULT_OPTIONS w1 uid q r = .ok := by
      unfold TileManager.validateClaimDistance
      rw [if_pos hempty]
    unfold TileManager.claimTile TileManager.normalizeUserId
    rw [if_neg hu]
    cases h : TileManager.loadTile DEFAULT_OPTIONS w1 q r with
    | none =>
      simp only []
      exact TileManager.claimTileCore_ok_not_outOfRange DEFAULT_OPTIONS w1 uid q r now none
        hok t0 md nd pe
    | some t =>
      by_cases hown : t.ownerId = some uid
      · simp [hown]
      · simp only [if_neg hown]
        exact TileManager.claimTileCore_ok_not_outOfRange DEFAULT_OPTIONS w1 uid q r now
          (some t) hok t0 md nd pe
  · have hset : w2.ownerTiles uid ≠ ∅ := hne.ne_empty
    have hnex : ¬ ∃ c ∈ w2.ownerTiles uid,
        HexMath.hex_distance (q, r) c ≤ DEFAULT_OPTIONS.maxClaimDistanceFromOwned := by
      rintro ⟨c, hc, hle⟩
      exact absurd hle (not_le.mpr (hfar c hc))
    have hout : TileManager.validateClaimDistance DEFAULT_OPTIONS w2 uid q r
        = .outOfRange (TileManager.nearestOwnedDistance w2 uid q r) := by
      unfold TileManager.validateClaimDistance
      rw [if_neg hset, if_neg hnex]
    have hnd : TileManager.nearestOwnedDistance w2 uid q r
        = some (((w2.ownerTiles uid).image fun c => HexMath.hex_distance (q, r) c).min'
            (hne.image _)) := by
      unfold TileManager.nearestOwnedDistance
      rw [dif_pos hne]
    rw [TileManager.claimTile_not_self DEFAULT_OPTIONS w2 uid q r now hu hself2,
      TileManager.claimTileCore_outOfRange DEFAULT_OPTIONS w2 uid q r now
        (TileManager.loadTile DEFAULT_OPTIONS w2 q r)
        (TileManager.nearestOwnedDistance w2 uid q r) hout, hnd]
    exact ⟨_, _, rfl⟩

/-- A world whose only owned tile of `a` is 20 hexes away from the origin. -/
def farWorld : World :=
  { emptyWorld with ownerTiles := fun u => if u = "a" then {(20, 0)} else ∅ }

theorem claim_range_gate_witness :
    (∀ t0 md nd pe, (TileManager.claimTile DEFAULT_OPTIONS emptyWorld "a" 0 0 0).1
        ≠ some (.outOfRange t0 md nd pe))
    ∧ ∃ nd pe w',
        TileManager.claimTile DEFAULT_OPTIONS farWorld "a" 0 0 0
          = (some (.outOfRange (TileManager.loadTile DEFAULT_OPTIONS farWorld 0 0)
              DEFAULT_OPTIONS.maxClaimDistanceFromOwned nd pe), w') := by
  have h := claim_range_gate emptyWorld farWorld "a" 0 0 0 (by decide)
    (by simp [emptyWorld])
    (by simp [farWorld])
    (by
      intro c hc
      simp only [farWorld] at hc
      simp at hc
      subst hc
      decide)
    (by
      intro t ht
      simp [TileManager.loadTile, farWorld, emptyWorld] at ht)
  obtain ⟨ha, pe, w', heq⟩ := h
  exact ⟨ha, _, pe, w', heq⟩

/-!
## C2: the owner-set / leaderboard invariant under claim sequences
-/

/-- One `claimTile` request: acting user, target coordinates, wall clock. -/
structure ClaimOp where
  userId : String
  q : ℤ
  r : ℤ
  now : ℚ

/-- The world after a `claimTile` call (the result record is discarded). -/
def claimStep (cfg : TileManagerOptions) (w : World) (op : ClaimOp) : World :=
  (TileManager.claimTile cfg w op.userId op.q op.r op.now).2

/-- Run a sequence of claims from the empty world. -/
def runClaims (cfg : TileManagerOptions) (ops : List ClaimOp) : World :=
  ops.foldl (claimStep cfg) emptyWorld

/-- The owner a tile hash parses to (the `ownerId` normalization of
`parseTile`): `none` when the hash is absent, its owner field is null, or its
owner field trims to empty. -/
def storedOwner (w : World) (c : ℤ × ℤ) : Option String :=
  (w.tiles c).bind fun t => t.ownerId.bind fun s => if strTrim s = "" then none else some s

/-- Spec invariants 2 and 3 restricted to what claims maintain: every owner
set holds exactly the coordinates whose tile parses to that owner, and every
leaderboard score equals the owner set's cardinality. -/
def OwnerInv (w : World) : Prop :=
  (∀ p c, c ∈ w.ownerTiles p ↔ storedOwner w c = some p)
    ∧ ∀ p, w.leaderboard p = ((w.ownerTiles p).card : ℤ)

theorem ownerInv_emptyWorld : OwnerInv emptyWorld := by
  constructor
  · intro p c
    simp [emptyWorld, storedOwner]
  · intro p
    simp [emptyWorld]

theorem OwnerInv.of_eq {w' w : World} (h : OwnerInv w) (ht : w'.tiles = w.tiles)
    (ho : w'.ownerTiles = w.ownerTiles) (hl : w'.leaderboard = w.leaderboard) :
    OwnerInv w' := by
  constructor
  · intro p c
    rw [ho]
    unfold storedOwner
    rw [ht]
    exact h.1 p c
  · intro p
    rw [hl, ho]
    exact h.2 p

namespace TileManager

theorem loadTile_congr (cfg : TileManagerOptions) {w' w : World} (q r : ℤ)
    (h : w'.tiles = w.tiles) : loadTile cfg w' q r = loadTile cfg w q r := by
  unfold loadTile
  rw [h]

theorem loadTile_ownerId_eq (cfg : TileManagerOptions) (w : World) (q r : ℤ) (t : TileState)
    (h : loadTile cfg w q r = some t) : t.ownerId = storedOwner w (q, r) := by
  obtain ⟨raw, hraw, rfl⟩ := loadTile_elim cfg w q r t h
  unfold storedOwner
  rw [hraw]
  cases hro : raw.ownerId with
  | none => simp [parseTile, hro]
  | some s =>
    by_cases hs : strTrim s = ""
    · simp [parseTile, hro, hs]
    · simp [parseTile, hro, hs]

theorem loadTile_none_storedOwner (cfg : TileManagerOptions) (w : World) (q r : ℤ)
    (h : loadTile cfg w q r = none) : storedOwner w (q, r) = none := by
  unfold loadTile at h
  cases hw : w.tiles (q, r) with
  | none => unfold storedOwner; rw [hw]; rfl
  | some raw => rw [hw] at h; exact absurd h (by simp)

end TileManager

/-- Rebuilding the invariant after a claim of an unowned-or-absent tile: the
tile at `m` now parses to `uid`, `uid`'s owner set gained `m`, and `uid`'s
score rose by one. -/
theorem ownerInv_build (w' w : World) (uid : String) (m : ℤ × ℤ) (pers : TileState)
    (hInv : OwnerInv w)
    (htr : strTrim uid ≠ "")
    (hpo : pers.ownerId = some uid)
    (hOm : storedOwner w m = none)
    (htiles : w'.tiles = Function.update w.tiles m (some pers))
    (howner : w'.ownerTiles = Function.update w.ownerTiles uid (insert m (w.ownerTiles uid)))
    (hlb : w'.leaderboard = Function.update w.leaderboard uid (w.leaderboard uid + 1)) :
    OwnerInv w' := by
  obtain ⟨hmem, hcard⟩ := hInv
  have hm_not : m ∉ w.ownerTiles uid := by
    rw [hmem, hOm]
    simp
  have hsm : storedOwner w' m = some uid := by
    unfold storedOwner
    rw [htiles, Function.update_same]
    simp [hpo, htr]
  have hsc : ∀ c, c ≠ m → storedOwner w' c = storedOwner w c := by
    intro c hcm
    unfold storedOwner
    rw [htiles, Function.update_noteq hcm]
  constructor
  · intro p c
    by_cases hcm : c = m
    · subst hcm
      rw [hsm, howner]
      by_cases hp : p = uid
      · subst hp
        rw [Function.update_same]
        simp
      · rw [Function.update_noteq hp, hmem p c, hOm]
        constructor
        · intro hfalse
          exact absurd hfalse (by simp)
        · intro hequ
          exact absurd ((Option.some.injEq _ _).mp hequ).symm hp
    · rw [hsc c hcm, howner]
      by_cases hp : p = uid
      · subst hp
        rw [Function.update_same, Finset.mem_insert, hmem p c]
        constructor
        · rintro (rfl | h)
          · exact absurd rfl hcm
          · exact h
        · intro h
          exact Or.inr h
      · rw [Function.update_noteq hp]
        exact hmem p c
  · intro p
    rw [hlb, howner]
    by_cases hp : p = uid
    · subst hp
      rw [Function.update_same, Function.update_same,
        Finset.card_insert_of_not_mem hm_not, hcard p]
      push_cast
      ring
    · rw [Function.update_noteq hp, Function.update_noteq hp]
      exact hcard p

/-- Rebuilding the invariant after a capture: additionally, the previous
owner's set loses `m` and their score drops by one. -/
theorem ownerInv_build_capture (w' w : World) (uid prev : String) (m : ℤ × ℤ)
    (pers : TileState)
    (hInv : OwnerInv w)
    (htr : strTrim uid ≠ "")
    (hpo : pers.ownerId = some uid)
    (hOm : storedOwner w m = some prev)
    (hprev : prev ≠ uid)
    (htiles : w'.tiles = Function.update w.tiles m (some pers))
    (howner : w'.ownerTiles
      = Function.update (Function.update w.ownerTiles uid (insert m (w.ownerTiles uid))) prev
          ((Function.update w.ownerTiles uid (insert m (w.ownerTiles uid)) prev).erase m))
    (hlb : w'.leaderboard
      = Function.update (Function.update w.leaderboard prev (w.leaderboard prev - 1)) uid
          (Function.update w.leaderboard prev (w.leaderboard prev - 1) uid + 1)) :
    OwnerInv w' := by
  obtain ⟨hmem, hcard⟩ := hInv
  have hm_not : m ∉ w.ownerTiles uid := by
    rw [hmem, hOm]
    intro hequ
    exact absurd ((Option.some.injEq _ _).mp hequ) hprev
  have hm_prev : m ∈ w.ownerTiles prev := by
    rw [hmem, hOm]
  have howner' : ∀ p, w'.ownerTiles p
      = if p = prev then (w.ownerTiles prev).erase m
        else if p = uid then insert m (w.ownerTiles uid)
        else w.ownerTiles p := by
    intro p
    rw [howner]
    by_cases hpp : p = prev
    · subst hpp
      rw [Function.update_same, Function.update_noteq hprev, if_pos rfl]
    · rw [if_neg hpp, Function.update_noteq hpp]
      by_cases hpu : p = uid
      · subst hpu
        rw [Function.update_same, if_pos rfl]
      · rw [if_neg hpu, Function.update_noteq hpu]
  have hlb' : ∀ p, w'.leaderboard p
      = if p = uid then w.leaderboard uid + 1
        else if p = prev then w.leaderboard prev - 1
        else w.leaderboard p := by
    intro p
    rw [hlb]
    by_cases hpu : p = uid
    · subst hpu
      rw [Function.update_same, if_pos rfl, Function.update_noteq (Ne.symm hprev)]
    · rw [if_neg hpu, Function.update_noteq hpu]
      by_cases hpp : p = prev
      · subst hpp
        rw [Function.update_same, if_pos rfl]
      · rw [if_neg hpp, Function.update_noteq hpp]
  have hsm : storedOwner w' m = some uid := by
    unfold storedOwner
    rw [htiles, Function.update_same]
    simp [hpo, htr]
  have hsc : ∀ c, c ≠ m → storedOwner w' c = storedOwner w c := by
    intro c hcm
    unfold storedOwner
    rw [htiles, Function.update_noteq hcm]
  constructor
  · intro p c
    by_cases hcm : c = m
    · subst hcm
      rw [hsm, howner' p]
      by_cases hpp : p = prev
      · subst hpp
        rw [if_pos rfl]
        simp [Finset.mem_erase]
        intro hequ
        exact absurd hequ.symm hprev
      · rw [if_neg hpp]
        by_cases hpu : p = uid
        · subst hpu
          rw [if_pos rfl]
          simp
        · rw [if_neg hpu, hmem p c, hOm]
          simp only [Option.some.injEq]
          constructor
          · intro h0
            exact absurd h0.symm hpp
          · intro h0
            exact absurd h0.symm hpu
    · rw [hsc c hcm, howner' p]
      by_cases hpp : p = prev
      · subst hpp
        rw [if_pos rfl, Finset.mem_erase]
        constructor
        · rintro ⟨-, h⟩
          exact (hmem p c).mp h
        · intro h
          exact ⟨hcm, (hmem p c).mpr h⟩
      · rw [if_neg hpp]
        by_cases hpu : p = uid
        · subst hpu
          rw [if_pos rfl, Finset.mem_insert]
          constructor
          · rintro (rfl | h)
            · exact absurd rfl hcm
            · exact (hmem p c).mp h
          · intro h
            exact Or.inr ((hmem p c).mpr h)
        · rw [if_neg hpu]
          exact hmem p c
  · intro p
    rw [hlb' p, howner' p]
    by_cases hpu : p = uid
    · subst hpu
      rw [if_pos rfl, if_neg (fun h => hprev h.symm), if_pos rfl,
        Finset.card_insert_of_not_mem hm_not, hcard p]
      push_cast
      ring
    · rw [if_neg hpu]
      by_cases hpp : p = prev
      · subst hpp
        rw [if_pos rfl, if_pos rfl, hcard p, Finset.cast_card_erase_of_mem hm_prev]
      · rw [if_neg hpp, if_neg hpp, if_neg hpu]
        exact hcard p

namespace TileManager

@[simp] theorem recordChunkActivity_tiles (cfg : TileManagerOptions) (w : World) (q r : ℤ)
    (amount : ℚ) : (recordChunkActivity cfg w q r amount).tiles = w.tiles := by
  unfold recordChunkActivity
  split <;> rfl

@[simp] theorem recordChunkActivity_ownerTiles (cfg : TileManagerOptions) (w : World)
    (q r : ℤ) (amount : ℚ) :
    (recordChunkActivity cfg w q r amount).ownerTiles = w.ownerTiles := by
  unfold recordChunkActivity
  split <;> rfl

@[simp] theorem recordChunkActivity_leaderboard (cfg : TileManagerOptions) (w : World)
    (q r : ℤ) (amount : ℚ) :
    (recordChunkActivity cfg w q r amount).leaderboard = w.leaderboard := by
  unfold recordChunkActivity
  split <;> rfl

@[simp] theorem world_poi_ite_tiles (c : Prop) [Decidable c] (w : World)
    (x : Finset (TileType × ℤ × ℤ × ℤ)) :
    (if c then { w with poiIndex := x } else w).tiles = w.tiles := by
  split <;> rfl

@[simp] theorem world_poi_ite_ownerTiles (c : Prop) [Decidable c] (w : World)
    (x : Finset (TileType × ℤ × ℤ × ℤ)) :
    (if c then { w with poiIndex := x } else w).ownerTiles = w.ownerTiles := by
  split <;> rfl

@[simp] theorem world_poi_ite_leaderboard (c : Prop) [Decidable c] (w : World)
    (x : Finset (TileType × ℤ × ℤ × ℤ)) :
    (if c then { w with poiIndex := x } else w).leaderboard = w.leaderboard := by
  split <;> rfl

/-- The commit step preserves the owner/leaderboard invariant. -/
theorem claimCommit_inv (cfg : TileManagerOptions) (w : World) (uid : String) (q r : ℤ)
    (now : ℚ) (currentTile : Option TileState) (eA cost : ℚ)
    (hInv : OwnerInv w)
    (htr : strTrim uid ≠ "")
    (hcur : currentTile = loadTile cfg w q r)
    (hnotself : ∀ t, currentTile = some t → t.ownerId ≠ some uid) :
    OwnerInv (claimCommit cfg w uid q r now currentTile eA cost).2 := by
  cases hct : currentTile with
  | none =>
    have hOm : storedOwner w (q, r) = none :=
      loadTile_none_storedOwner cfg w q r (by rw [← hcur, hct])
    have ht : (claimCommit cfg w uid q r now none eA cost).2.tiles
        = Function.update w.tiles (q, r)
          (some { q := q, r := r, ownerId := some uid
                  ownerAllianceTag := (getPlayerProfile cfg w uid now).1.allianceTag
                  ownerAllianceColor := (getPlayerProfile cfg w uid now).1.allianceColor
                  energy := round4 cfg.initialTileEnergy
                  lastUpdate := (⌊now⌋ : ℚ)
                  integrity := round4 cfg.initialTileIntegrity
                  level := max 1 cfg.initialTileLevel
                  tileType := .normal }) := by
      simp [claimCommit, isHostile, persistTileState]
    have ho : (claimCommit cfg w uid q r now none eA cost).2.ownerTiles
        = Function.update w.ownerTiles uid (insert (q, r) (w.ownerTiles uid)) := by
      simp [claimCommit, isHostile, persistTileState]
    have hl : (claimCommit cfg w uid q r now none eA cost).2.leaderboard
        = Function.update w.leaderboard uid (w.leaderboard uid + 1) := by
      simp [claimCommit, isHostile, persistTileState]
    exact ownerInv_build _ w uid (q, r) _ hInv htr rfl hOm ht ho hl
  | some t =>
    cases hto : t.ownerId with
    | none =>
      have hOm : storedOwner w (q, r) = none := by
        rw [← loadTile_ownerId_eq cfg w q r t (by rw [← hcur, hct]), hto]
      have ht : (claimCommit cfg w uid q r now (some t) eA cost).2.tiles
          = Function.update w.tiles (q, r)
            (some { t with
                    q := q, r := r, ownerId := some uid
                    ownerAllianceTag := (getPlayerProfile cfg w uid now).1.allianceTag
                    ownerAllianceColor := (getPlayerProfile cfg w uid now).1.allianceColor
                    energy := round4 t.energy
                    lastUpdate := (⌊now⌋ : ℚ)
                    integrity := round4 t.integrity
                    level := max 1 t.level }) := by
        simp [claimCommit, isHostile, hto, persistTileState]
        split <;> rfl
      have ho : (claimCommit cfg w uid q r now (some t) eA cost).2.ownerTiles
          = Function.update w.ownerTiles uid (insert (q, r) (w.ownerTiles uid)) := by
        simp [claimCommit, isHostile, hto, persistTileState]
        split <;> rfl
      have hl : (claimCommit cfg w uid q r now (some t) eA cost).2.leaderboard
          = Function.update w.leaderboard uid (w.leaderboard uid + 1) := by
        simp [claimCommit, isHostile, hto, persistTileState]
        split <;> rfl
      exact ownerInv_build _ w uid (q, r) _ hInv htr rfl hOm ht ho hl
    | some prev =>
      have hprev : prev ≠ uid := by
        intro hp
        exact hnotself t hct (by rw [hto, hp])
      have hOm : storedOwner w (q, r) = some prev := by
        rw [← loadTile_ownerId_eq cfg w q r t (by rw [← hcur, hct]), hto]
      have hbne : (prev != uid) = true := bne_iff_ne.mpr hprev
      have ht : (claimCommit cfg w uid q r now (some t) eA cost).2.tiles
          = Function.update w.tiles (q, r)
            (some { t with
                    q := q, r := r, ownerId := some uid
                    ownerAllianceTag := (getPlayerProfile cfg w uid now).1.allianceTag
                    ownerAllianceColor := (getPlayerProfile cfg w uid now).1.allianceColor
                    energy := round4 t.energy
                    lastUpdate := (⌊now⌋ : ℚ)
                    integrity := round4 t.integrity
                    level := max 1 t.level }) := by
        simp [claimCommit, isHostile, hto, hbne, hprev, persistTileState]
        split <;> rfl
      have ho : (claimCommit cfg w uid q r now (some t) eA cost).2.ownerTiles
          = Function.update
              (Function.update w.ownerTiles uid (insert (q, r) (w.ownerTiles uid))) prev
              ((Function.update w.ownerTiles uid (insert (q, r) (w.ownerTiles uid)) prev).erase
                (q, r)) := by
        simp [claimCommit, isHostile, hto, hbne, hprev, persistTileState]
        split <;> rfl
      have hl : (claimCommit cfg w uid q r now (some t) eA cost).2.leaderboard
          = Function.update (Function.update w.leaderboard prev (w.leaderboard prev - 1)) uid
              (Function.update w.leaderboard prev (w.leaderboard prev - 1) uid + 1) := by
        simp [claimCommit, isHostile, hto, hbne, hprev, persistTileState]
        split <;> rfl
      exact ownerInv_build_capture _ w uid prev (q, r) _ hInv htr rfl hOm hprev ht ho hl

end TileManager

namespace TileManager

theorem claimTileCore_inv (cfg : TileManagerOptions) (w : World) (uid : String) (q r : ℤ)
    (now : ℚ) (currentTile : Option TileState)
    (htrne : strTrim uid ≠ "")
    (hcur : currentTile = loadTile cfg w q r)
    (hnotself : ∀ t, currentTile = some t → t.ownerId ≠ some uid)
    (hInv : OwnerInv w) : OwnerInv (claimTileCore cfg w uid q r now currentTile).2 := by
  unfold claimTileCore
  cases hv : validateClaimDistance cfg w uid q r with
  | outOfRange nd =>
    dsimp only
    exact hInv.of_eq (by simp) (by simp) (by simp)
  | ok =>
    dsimp only
    rcases hsp : spendPlayerEnergy cfg w uid (claimCost cfg currentTile uid) now with ⟨sr, w1⟩
    have hw1 : w1 = (spendPlayerEnergy cfg w uid (claimCost cfg currentTile uid) now).2 := by
      rw [hsp]
    cases sr with
    | fail eA =>
      dsimp only
      exact hInv.of_eq (by rw [hw1]; simp) (by rw [hw1]; simp) (by rw [hw1]; simp)
    | ok eA =>
      dsimp only
      have hInv1 : OwnerInv w1 :=
        hInv.of_eq (by rw [hw1]; simp) (by rw [hw1]; simp) (by rw [hw1]; simp)
      have hcur1 : currentTile = loadTile cfg w1 q r := by
        rw [hcur]
        exact (loadTile_congr cfg q r (by rw [hw1]; simp)).symm
      exact claimCommit_inv cfg w1 uid q r now currentTile eA
        (claimCost cfg currentTile uid) hInv1 htrne hcur1 hnotself

end TileManager

/-- A single `claimTile` call preserves the owner/leaderboard invariant
(assuming the acting user id is in trimmed form, as the data model requires;
the source's `normalizeUserId` trims before acting, which is the identity on
such ids). -/
theorem claimStep_inv (cfg : TileManagerOptions) (w : World) (op : ClaimOp)
    (htr : strTrim op.userId = op.userId)
    (hInv : OwnerInv w) : OwnerInv (claimStep cfg w op) := by
  unfold claimStep TileManager.claimTile TileManager.normalizeUserId
  by_cases hu : op.userId = ""
  · rw [if_pos hu]
    exact hInv
  · rw [if_neg hu]
    have htrne : strTrim op.userId ≠ "" := by rw [htr]; exact hu
    dsimp only
    cases hl : TileManager.loadTile cfg w op.q op.r with
    | none =>
      dsimp only
      exact TileManager.claimTileCore_inv cfg w op.userId op.q op.r op.now none htrne
        (by rw [hl]) (by intro t ht; exact absurd ht (by simp)) hInv
    | some t =>
      dsimp only
      by_cases hown : t.ownerId = some op.userId
      · rw [if_pos hown]
        dsimp only
        exact hInv.of_eq (by simp) (by simp) (by simp)
      · rw [if_neg hown]
        exact TileManager.claimTileCore_inv cfg w op.userId op.q op.r op.now (some t) htrne
          (by rw [hl])
          (by
            intro t' ht'
            obtain rfl := (Option.some.injEq _ _).mp ht'.symm
            exact hown) hInv

theorem ownerInv_foldl (cfg : TileManagerOptions) (ops : List ClaimOp) :
    ∀ w : World, OwnerInv w → (∀ op ∈ ops, strTrim op.userId = op.userId)
      → OwnerInv (ops.foldl (claimStep cfg) w) := by
  induction ops with
  | nil =>
    intro w hInv _
    exact hInv
  | cons op rest ih =>
    intro w hInv htr
    simp only [List.foldl_cons]
    exact ih (claimStep cfg w op)
      (claimStep_inv cfg w op (htr op (List.mem_cons_self op rest)) hInv)
      fun o ho => htr o (List.mem_cons_of_mem op ho)

/-- C2: starting from the empty world, after any prefix of any finite
sequence of `claimTile` operations (with trimmed user ids, as the data model
requires), every player's `leaderboard:tiles` score equals the cardinality of
their `owner:<uid>:tiles` set, and in particular that score is never below
zero at any point in the sequence. -/
theorem leaderboard_matches_owned_tiles (cfg : TileManagerOptions) (ops : List ClaimOp)
    (p : String) (n : ℕ)
    (htr : ∀ op ∈ ops, strTrim op.userId = op.userId) :
    (((runClaims cfg (ops.take n)).ownerTiles p).card : ℤ)
        = (runClaims cfg (ops.take n)).leaderboard p
      ∧ 0 ≤ (runClaims cfg (ops.take n)).leaderboard p := by
  have h : OwnerInv (runClaims cfg (ops.take n)) :=
    ownerInv_foldl cfg (ops.take n) emptyWorld ownerInv_emptyWorld
      fun op hop => htr op (List.mem_of_mem_take hop)
  have hc := h.2 p
  refine ⟨hc.symm, ?_⟩
  rw [hc]
  exact Int.natCast_nonneg _

/-- Witness for `leaderboard_matches_owned_tiles`: two claims by `a` and `b`,
checked for player `a` after the whole sequence. -/
theorem leaderboard_matches_owned_tiles_witness :
    (((runClaims DEFAULT_OPTIONS ((([⟨"a", 0, 0, 0⟩, ⟨"b", 1, 0, 1⟩] : List ClaimOp)).take 2)).ownerTiles
        "a").card : ℤ)
        = (runClaims DEFAULT_OPTIONS (([⟨"a", 0, 0, 0⟩, ⟨"b", 1, 0, 1⟩] : List ClaimOp).take 2)).leaderboard "a"
      ∧ 0 ≤ (runClaims DEFAULT_OPTIONS (([⟨"a", 0, 0, 0⟩, ⟨"b", 1, 0, 1⟩] : List ClaimOp).take 2)).leaderboard "a" :=
  leaderboard_matches_owned_tiles DEFAULT_OPTIONS [⟨"a", 0, 0, 0⟩, ⟨"b", 1, 0, 1⟩] "a" 2
    (by
      intro op hop
      simp only [List.mem_cons, List.not_mem_nil, or_false] at hop
      rcases hop with rfl | rfl <;> decide)

/-!
## C5: idempotence of the recharge tick
-/

namespace TileManager

theorem sameTileState_iff (a b : TileState) : sameTileState a b = true ↔ a = b := by
  cases a
  cases b
  simp [sameTileState, TileState.mk.injEq, and_assoc]

theorem sameTileState_rfl (a : TileState) : sameTileState a a = true :=
  (sameTileState_iff a a).mpr rfl

theorem getOrCreatePlayerState_snd_players_mono (cfg : TileManagerOptions) (w : World)
    (uid : String) (now : ℚ) (u : String) (p : PlayerEnergyState)
    (h : w.players u = some p) : ((getOrCreatePlayerState cfg w uid now).2).players u = some p := by
  cases hw : w.players uid with
  | some hash => simp [getOrCreatePlayerState, hw, h]
  | none =>
    have hne : u ≠ uid := by
      intro he
      rw [he, hw] at h
      exact absurd h (by simp)
    simp only [getOrCreatePlayerState, hw, persistPlayerState]
    rw [Function.update_noteq hne]
    exact h

theorem getPlayerProfile_snd_players_mono (cfg : TileManagerOptions) (w : World)
    (uid : String) (now : ℚ) (u : String) (p : PlayerEnergyState)
    (h : w.players u = some p) : ((getPlayerProfile cfg w uid now).2).players u = some p := by
  unfold getPlayerProfile
  exact getOrCreatePlayerState_snd_players_mono cfg w uid now u p h

theorem neighborMatchLoop_players_mono (cfg : TileManagerOptions) (ownerId tag : String)
    (now : ℚ) (L : List (ℤ × ℤ)) (w : World) (u : String) (p : PlayerEnergyState)
    (h : w.players u = some p) :
    ((neighborMatchLoop cfg ownerId tag now w L).2).players u = some p := by
  induction L generalizing w with
  | nil => exact h
  | cons n rest ih =>
    simp only [neighborMatchLoop]
    cases hl : loadTile cfg w n.1 n.2 with
    | none => exact ih w h
    | some nt =>
      cases ho : nt.ownerId with
      | none =>
        simp only [ho]
        exact ih w h
      | some v =>
        simp only [ho]
        by_cases hv : v = ownerId
        · rw [if_pos hv]
          exact ih w h
        · rw [if_neg hv]
          by_cases ht : (getPlayerProfile cfg w v now).1.allianceTag = some tag
          · rw [if_pos ht]
            exact getPlayerProfile_snd_players_mono cfg w v now u p h
          · rw [if_neg ht]
            exact ih ((getPlayerProfile cfg w v now).2)
              (getPlayerProfile_snd_players_mono cfg w v now u p h)

theorem getAllianceBonusMultiplier_players_mono (cfg : TileManagerOptions) (w : World)
    (tile : TileState) (now : ℚ) (u : String) (p : PlayerEnergyState)
    (h : w.players u = some p) :
    ((getAllianceBonusMultiplier cfg w tile now).2).players u = some p := by
  unfold getAllianceBonusMultiplier
  cases ho : tile.ownerId with
  | none =>
    simp only [ho]
    exact h
  | some ownerId =>
    simp only [ho]
    cases ht : (getPlayerProfile cfg w ownerId now).1.allianceTag with
    | none =>
      simp only [ht]
      exact getPlayerProfile_snd_players_mono cfg w ownerId now u p h
    | some tag =>
      simp only [ht]
      exact neighborMatchLoop_players_mono cfg ownerId tag now _ _ u p
        (getPlayerProfile_snd_players_mono cfg w ownerId now u p h)

/-- All tiles a run of the tick has already processed satisfy this: the
parsed `lastUpdate` is at or past `now`, so the elapsed time of a repeated
tick is zero. -/
def TileSettled (cfg : TileManagerOptions) (w : World) (now : ℚ) (c : ℤ × ℤ) : Prop :=
  ∀ t, loadTile cfg w c.1 c.2 = some t → now ≤ t.lastUpdate

theorem TileSettled.congr {cfg : TileManagerOptions} {w' w : World} {now : ℚ} {c : ℤ × ℤ}
    (h : TileSettled cfg w now c) (ht : w'.tiles (c.1, c.2) = w.tiles (c.1, c.2)) :
    TileSettled cfg w' now c := by
  intro t hl
  apply h t
  unfold loadTile at hl ⊢
  rw [← ht]
  exact hl

theorem evolveTileState_settled (cfg : TileManagerOptions) (t : TileState) (now : ℚ)
    (mult : ℚ) (h : now ≤ t.lastUpdate) : evolveTileState cfg t now mult = (t, 0) := by
  unfold evolveTileState
  rw [if_pos (by simp; linarith)]

/-- A step on a settled member changes nothing except possibly lazily
creating absent player records. -/
theorem rechargeStep_settled (cfg : TileManagerOptions) (now : ℚ) (acc : RechargeAcc)
    (c : ℤ × ℤ) (hs : TileSettled cfg acc.world now c) :
    (rechargeStep cfg now acc c).world.tiles = acc.world.tiles
      ∧ (rechargeStep cfg now acc c).updatedTiles = acc.updatedTiles
      ∧ (rechargeStep cfg now acc c).ownerEnergyGains = acc.ownerEnergyGains
      ∧ ∀ u p, acc.world.players u = some p
          → (rechargeStep cfg now acc c).world.players u = some p := by
  unfold rechargeStep
  cases hl : loadTile cfg acc.world c.1 c.2 with
  | none => exact ⟨rfl, rfl, rfl, fun u p h => h⟩
  | some t =>
    have hev : evolveTileState cfg t now
        (getAllianceBonusMultiplier cfg acc.world t now).1 = (t, 0) :=
      evolveTileState_settled cfg t now _ (hs t hl)
    dsimp only
    rw [hev]
    dsimp only
    rw [if_pos (sameTileState_rfl t)]
    have hmt := getAllianceBonusMultiplier_snd_tiles cfg acc.world t now
    cases ho : t.ownerId with
    | none =>
      simp only [ho]
      refine ⟨hmt, ?_, ?_, fun u p h =>
        getAllianceBonusMultiplier_players_mono cfg acc.world t now u p h⟩ <;> trivial
    | some ownerId =>
      simp only [ho]
      rw [if_neg (lt_irrefl 0)]
      refine ⟨hmt, ?_, ?_, fun u p h =>
        getAllianceBonusMultiplier_players_mono cfg acc.world t now u p h⟩ <;> trivial

/-- After a step processes member `c`, the tile at `c` is settled (for an
integer-valued `now`). -/
theorem rechargeStep_settles (cfg : TileManagerOptions) (now : ℚ) (acc : RechargeAcc)
    (c : ℤ × ℤ) (hnow : now = ((⌊now⌋ : ℤ) : ℚ)) :
    TileSettled cfg (rechargeStep cfg now acc c).world now c := by
  unfold rechargeStep
  cases hl : loadTile cfg acc.world c.1 c.2 with
  | none =>
    intro t ht
    rw [hl] at ht
    exact absurd ht (by simp)
  | some t =>
    dsimp only
    set m := getAllianceBonusMultiplier cfg acc.world t now with hm
    have hmt : (m.2).tiles = acc.world.tiles :=
      getAllianceBonusMultiplier_snd_tiles cfg acc.world t now
    by_cases he : max 0 (now - t.lastUpdate) = 0
    · have hle : now ≤ t.lastUpdate := by
        by_contra hcon
        push_neg at hcon
        have : (0 : ℚ) < now - t.lastUpdate := by linarith
        rw [max_eq_right this.le] at he
        linarith
      have hev : evolveTileState cfg t now m.1 = (t, 0) :=
        evolveTileState_settled cfg t now m.1 hle
      rw [hev]
      dsimp only
      rw [if_pos (sameTileState_rfl t)]
      have hsettled : TileSettled cfg m.2 now c := by
        intro t' ht'
        have : loadTile cfg m.2 c.1 c.2 = loadTile cfg acc.world c.1 c.2 := by
          unfold loadTile
          rw [hmt]
        rw [this, hl] at ht'
        obtain rfl := (Option.some.injEq _ _).mp ht'.symm
        exact hle
      cases ho : t.ownerId with
      | none => simpa [ho] using hsettled
      | some ownerId =>
        simp only [ho]
        rw [if_neg (lt_irrefl 0)]
        exact hsettled
    · have hlu : (evolveTileState cfg t now m.1).1.lastUpdate = ((⌊now⌋ : ℤ) : ℚ) := by
        unfold evolveTileState
        rw [if_neg he]
      by_cases hsame : sameTileState t (evolveTileState cfg t now m.1).1 = true
      · have hteq : t = (evolveTileState cfg t now m.1).1 := (sameTileState_iff _ _).mp hsame
        have hset : TileSettled cfg m.2 now c := by
          intro t' ht'
          have heq : loadTile cfg m.2 c.1 c.2 = loadTile cfg acc.world c.1 c.2 := by
            unfold loadTile
            rw [hmt]
          rw [heq, hl] at ht'
          obtain rfl := (Option.some.injEq _ _).mp ht'.symm
          rw [hnow, ← hlu, ← hteq]
        rw [if_pos hsame]
        cases ho : t.ownerId with
        | none => simpa [ho] using hset
        | some ownerId =>
          simp only [ho]
          split <;> exact hset
      · have hset : TileSettled cfg
            (persistTileState m.2 c.1 c.2 (evolveTileState cfg t now m.1).1) now c := by
          intro t' ht'
          unfold loadTile at ht'
          rw [persistTileState_tiles, Function.update_same] at ht'
          simp only [Option.map_some'] at ht'
          obtain rfl := (Option.some.injEq _ _).mp ht'.symm
          show now ≤ (TileManager.parseTile cfg c.1 c.2 _).lastUpdate
          simp only [parseTile]
          rw [hlu, Int.floor_intCast]
          exact le_of_eq hnow
        rw [if_neg hsame]
        cases ho : t.ownerId with
        | none => simpa [ho] using hset
        | some ownerId =>
          simp only [ho]
          split <;> exact hset

/-- A step on member `c` can only touch the tile hash at `c` itself. -/
theorem rechargeStep_tiles_ne (cfg : TileManagerOptions) (now : ℚ) (acc : RechargeAcc)
    (c : ℤ × ℤ) (k : ℤ × ℤ) (hk : k ≠ (c.1, c.2)) :
    (rechargeStep cfg now acc c).world.tiles k = acc.world.tiles k := by
  unfold rechargeStep
  cases hl : loadTile cfg acc.world c.1 c.2 with
  | none => rfl
  | some t =>
    dsimp only
    set m := getAllianceBonusMultiplier cfg acc.world t now with hm
    have hmt : (m.2).tiles = acc.world.tiles :=
      getAllianceBonusMultiplier_snd_tiles cfg acc.world t now
    by_cases hsame : sameTileState t (evolveTileState cfg t now m.1).1 = true
    · rw [if_pos hsame]
      cases ho : t.ownerId with
      | none => simpa [ho] using congrFun hmt k
      | some ownerId =>
        simp only [ho]
        split <;> exact congrFun hmt k
    · rw [if_neg hsame]
      have hp : (persistTileState m.2 c.1 c.2 (evolveTileState cfg t now m.1).1).tiles k
          = acc.world.tiles k := by
        rw [persistTileState_tiles, Function.update_noteq hk, hmt]
      cases ho : t.ownerId with
      | none => simpa [ho] using hp
      | some ownerId =>
        simp only [ho]
        split <;> exact hp

/-- A step keeps every already-settled member settled (the processed member
by `rechargeStep_settles`, the others because their hash is untouched). -/
theorem rechargeStep_preserves_settled (cfg : TileManagerOptions) (now : ℚ)
    (acc : RechargeAcc) (c d : ℤ × ℤ) (hnow : now = ((⌊now⌋ : ℤ) : ℚ))
    (hd : TileSettled cfg acc.world now d) :
    TileSettled cfg (rechargeStep cfg now acc c).world now d := by
  by_cases hdc : d = c
  · subst hdc
    exact rechargeStep_settles cfg now acc d hnow
  · have hk : ((d.1, d.2) : ℤ × ℤ) ≠ (c.1, c.2) := by
      rw [Prod.mk.eta, Prod.mk.eta]
      exact hdc
    exact TileSettled.congr hd (rechargeStep_tiles_ne cfg now acc c (d.1, d.2) hk)

theorem rechargeFold_preserves_settled (cfg : TileManagerOptions) (now : ℚ)
    (L : List (ℤ × ℤ)) (acc : RechargeAcc) (d : ℤ × ℤ)
    (hnow : now = ((⌊now⌋ : ℤ) : ℚ)) (hd : TileSettled cfg acc.world now d) :
    TileSettled cfg (L.foldl (rechargeStep cfg now) acc).world now d := by
  induction L generalizing acc with
  | nil => exact hd
  | cons c rest ih =>
    simp only [List.foldl_cons]
    exact ih _ (rechargeStep_preserves_settled cfg now acc c d hnow hd)

/-- After the sweep has processed every member of `L`, every member of `L`
is settled: a repeated tick at the same (integer) `now` sees zero elapsed
time on all of them. -/
theorem rechargeFold_settles (cfg : TileManagerOptions) (now : ℚ)
    (L : List (ℤ × ℤ)) (acc : RechargeAcc) (hnow : now = ((⌊now⌋ : ℤ) : ℚ)) :
    ∀ d ∈ L, TileSettled cfg (L.foldl (rechargeStep cfg now) acc).world now d := by
  induction L generalizing acc with
  | nil => intro d hd; exact absurd hd (List.not_mem_nil d)
  | cons c rest ih =>
    intro d hd
    simp only [List.foldl_cons]
    rcases List.mem_cons.mp hd with rfl | hdrest
    · exact rechargeFold_preserves_settled cfg now rest _ d hnow
        (rechargeStep_settles cfg now acc d hnow)
    · exact ih _ d hdrest

/-- A sweep over settled members is a no-op up to lazy player creation: the
tile hashes, the updated-tile count and the owner-gains map are untouched. -/
theorem rechargeFold_settled_noop (cfg : TileManagerOptions) (now : ℚ)
    (L : List (ℤ × ℤ)) (acc : RechargeAcc)
    (hall : ∀ d ∈ L, TileSettled cfg acc.world now d) :
    (L.foldl (rechargeStep cfg now) acc).world.tiles = acc.world.tiles
      ∧ (L.foldl (rechargeStep cfg now) acc).updatedTiles = acc.updatedTiles
      ∧ (L.foldl (rechargeStep cfg now) acc).ownerEnergyGains = acc.ownerEnergyGains
      ∧ ∀ u p, acc.world.players u = some p
          → (L.foldl (rechargeStep cfg now) acc).world.players u = some p := by
  induction L generalizing acc with
  | nil => exact ⟨rfl, rfl, rfl, fun u p h => h⟩
  | cons c rest ih =>
    simp only [List.foldl_cons]
    obtain ⟨ht, hu, hg, hp⟩ := rechargeStep_settled cfg now acc c
      (hall c (List.mem_cons_self c rest))
    have hall' : ∀ d ∈ rest, TileSettled cfg (rechargeStep cfg now acc c).world now d := by
      intro d hd
      exact TileSettled.congr (hall d (List.mem_cons_of_mem c hd)) (by rw [ht])
    obtain ⟨ht', hu', hg', hp'⟩ := ih _ hall'
    exact ⟨by rw [ht', ht], by rw [hu', hu], by rw [hg', hg],
      fun u p h => hp' u p (hp u p h)⟩

/-- The final owner-credit fold of `rechargeEnergy` never touches tile
hashes. -/
theorem gainsFold_tiles (cfg : TileManagerOptions) (now : ℚ) (gs : List (String × ℚ))
    (w : World) :
    (gs.foldl (fun wacc g => addPlayerEnergy cfg wacc g.1 g.2 now) w).tiles = w.tiles := by
  induction gs generalizing w with
  | nil => rfl
  | cons g rest ih =>
    simp only [List.foldl_cons]
    rw [ih, addPlayerEnergy_tiles]

end TileManager

/-- C5 (amended): for an integer-valued `now` (which `Date.now()` always
produces), an immediate second `rechargeEnergy` run at the same `now` over
(a subset of) the same index members is a no-op: it reports zero updated
tiles, accumulates no owner-energy credit, leaves every tile hash unchanged
and keeps every existing player record; its only possible effect is lazily
creating player records never observed before.  For fractional `now` the
property fails (persisting floors `last_update`, so elapsed time stays
positive; see the counterexample theorem). -/
theorem recharge_tick_idempotent (cfg : TileManagerOptions) (w : World) (now : ℚ)
    (L1 L2 : List (ℤ × ℤ)) (hnow : now = ((⌊now⌋ : ℤ) : ℚ))
    (hsub : ∀ c ∈ L2, c ∈ L1) :
    (TileManager.rechargeEnergy cfg (TileManager.rechargeEnergy cfg w now L1).2 now L2).1 = 0
    ∧ (L2.foldl (TileManager.rechargeStep cfg now)
        ⟨(TileManager.rechargeEnergy cfg w now L1).2, 0, []⟩).ownerEnergyGains = []
    ∧ (TileManager.rechargeEnergy cfg
        (TileManager.rechargeEnergy cfg w now L1).2 now L2).2.tiles
        = (TileManager.rechargeEnergy cfg w now L1).2.tiles
    ∧ ∀ u p, (TileManager.rechargeEnergy cfg w now L1).2.players u = some p
        → (TileManager.rechargeEnergy cfg
            (TileManager.rechargeEnergy cfg w now L1).2 now L2).2.players u = some p := by
  have hre : ∀ (w0 : World) (L : List (ℤ × ℤ)),
      TileManager.rechargeEnergy cfg w0 now L
        = ((L.foldl (TileManager.rechargeStep cfg now) ⟨w0, 0, []⟩).updatedTiles,
           ((L.foldl (TileManager.rechargeStep cfg now) ⟨w0, 0, []⟩).ownerEnergyGains).foldl
             (fun wacc g => TileManager.addPlayerEnergy cfg wacc g.1 g.2 now)
             (L.foldl (TileManager.rechargeStep cfg now) ⟨w0, 0, []⟩).world) :=
    fun w0 L => rfl
  have hsettle1 : ∀ c ∈ L1,
      TileManager.TileSettled cfg (TileManager.rechargeEnergy cfg w now L1).2 now c := by
    intro c hc
    refine TileManager.TileSettled.congr
      (TileManager.rechargeFold_settles cfg now L1 ⟨w, 0, []⟩ hnow c hc) ?_
    rw [hre w L1]
    exact congrFun (TileManager.gainsFold_tiles cfg now _ _) (c.1, c.2)
  obtain ⟨ht2, hu2, hg2, hp2⟩ := TileManager.rechargeFold_settled_noop cfg now L2
    ⟨(TileManager.rechargeEnergy cfg w now L1).2, 0, []⟩
    (fun d hd => hsettle1 d (hsub d hd))
  refine ⟨?_, hg2, ?_, ?_⟩
  · rw [hre _ L2]
    exact hu2
  · rw [hre _ L2, hg2]
    simp only [List.foldl_nil]
    exact ht2
  · intro u p hp
    rw [hre _ L2, hg2]
    simp only [List.foldl_nil]
    exact hp2 u p hp

/-- Witness for C5 (amended): the theorem at `now = 2`, a one-member index,
from the empty store; the hypotheses (integrality of `now` and the member
subset) hold and the second run reports zero updated tiles. -/
theorem recharge_tick_idempotent_witness :
    ((2 : ℚ) = ((⌊(2 : ℚ)⌋ : ℤ) : ℚ))
    ∧ (TileManager.rechargeEnergy DEFAULT_OPTIONS
        (TileManager.rechargeEnergy DEFAULT_OPTIONS emptyWorld 2 [((0 : ℤ), (0 : ℤ))]).2
        2 [((0 : ℤ), (0 : ℤ))]).1 = 0 :=
  ⟨by norm_num,
   (recharge_tick_idempotent DEFAULT_OPTIONS emptyWorld 2
      [((0 : ℤ), (0 : ℤ))] [((0 : ℤ), (0 : ℤ))] (by norm_num) (fun c hc => hc)).1⟩

/-- A concrete stored tile in parse-normal form: unowned, empty, full
integrity, never updated. -/
def tickTile : TileState :=
  { q := 0, r := 0, ownerId := none, ownerAllianceTag := none, ownerAllianceColor := none
    energy := 0, lastUpdate := 0, integrity := 100, level := 1, tileType := .normal }

/-- `tickTile` after one recharge tick at `now = 1/2`: it generated
`0.0005` energy, but its `last_update` was floored back to `0`. -/
def tickTile1 : TileState :=
  { q := 0, r := 0, ownerId := none, ownerAllianceTag := none, ownerAllianceColor := none
    energy := 1 / 2000, lastUpdate := 0, integrity := 100, level := 1, tileType := .normal }

/-- `tickTile1` after a second recharge tick at the same `now = 1/2`. -/
def tickTile2 : TileState :=
  { q := 0, r := 0, ownerId := none, ownerAllianceTag := none, ownerAllianceColor := none
    energy := 1 / 1000, lastUpdate := 0, integrity := 100, level := 1, tileType := .normal }

def tickWorld : World :=
  { emptyWorld with
    tiles := fun c => if c = (0, 0) then some tickTile else none
    tilesIndex := {(0, 0)} }

/-- C5 counterexample: the claim quantifies over *every* `now`, but at the
fractional `now = 1/2` ms a second `rechargeEnergy` run immediately after
the first still reports one updated tile (not zero): the first run floors
the stored `last_update` to `0`, so the second run sees a positive elapsed
time again and re-persists the tile with more energy. -/
theorem recharge_tick_fractional_now_not_idempotent :
    (TileManager.rechargeEnergy DEFAULT_OPTIONS
      (TileManager.rechargeEnergy DEFAULT_OPTIONS tickWorld (1 / 2) [((0 : ℤ), (0 : ℤ))]).2
      (1 / 2) [((0 : ℤ), (0 : ℤ))]).1 = 1 := by
  have hc0 : clamp (0 : ℚ) 0 100 = 0 := clamp_eq_self (by norm_num) (by norm_num)
  have hc100 : clamp (100 : ℚ) 0 100 = 100 := clamp_eq_self (by norm_num) (by norm_num)
  have hc1 : clamp ((1 : ℚ) / 2000) 0 100 = 1 / 2000 :=
    clamp_eq_self (by norm_num) (by norm_num)
  have hc2 : clamp ((1 : ℚ) / 1000) 0 100 = 1 / 1000 :=
    clamp_eq_self (by norm_num) (by norm_num)
  have hrint : round4 ((100 : ℚ) - 1 / 120000) = 100 := by
    norm_num [round4, jsRound]
  have hr100 : round4 (100 : ℚ) = 100 := by
    norm_num [round4, jsRound]
  have hr1 : round4 ((1 : ℚ) / 2000) = 1 / 2000 := by
    norm_num [round4, jsRound]
  have hmaxe : max (0 : ℚ) (1 / 2) = 1 / 2 := max_eq_right (by norm_num)
  have hmax6000 : max (0 : ℚ) 6000 = 6000 := max_eq_right (by norm_num)
  have hmin6000 : min ((1 : ℚ) / 2000) 6000 = 1 / 2000 := min_eq_left (by norm_num)
  have hev1 : TileManager.evolveTileState DEFAULT_OPTIONS tickTile (1 / 2) 1
      = (tickTile1, 1 / 2000) := by
    norm_num [TileManager.evolveTileState, tickTile, tickTile1, DEFAULT_OPTIONS,
      hmaxe, hmax6000, hmin6000, hrint, hc100, round4, jsRound, hc1]
  have hev2 : TileManager.evolveTileState DEFAULT_OPTIONS tickTile1 (1 / 2) 1
      = (tickTile2, 1 / 2000) := by
    norm_num [TileManager.evolveTileState, tickTile1, tickTile2, DEFAULT_OPTIONS,
      hmaxe, hmax6000, hmin6000, hrint, hc100, round4, jsRound, hc2]
  have hsame1 : ¬ (TileManager.sameTileState tickTile tickTile1 = true) := by
    rw [TileManager.sameTileState_iff]
    intro h
    have he := congrArg TileState.energy h
    norm_num [tickTile, tickTile1] at he
  have hsame2 : ¬ (TileManager.sameTileState tickTile1 tickTile2 = true) := by
    rw [TileManager.sameTileState_iff]
    intro h
    have he := congrArg TileState.energy h
    norm_num [tickTile1, tickTile2] at he
  have hmult1 : TileManager.getAllianceBonusMultiplier DEFAULT_OPTIONS tickWorld tickTile
      (1 / 2) = (1, tickWorld) := rfl
  have ho1 : tickTile.ownerId = none := rfl
  have ho2 : tickTile1.ownerId = none := rfl
  have hload1 : TileManager.loadTile DEFAULT_OPTIONS tickWorld 0 0 = some tickTile := by
    simp [TileManager.loadTile, tickWorld, emptyWorld, TileManager.parseTile, tickTile,
      hc0, hc100, DEFAULT_OPTIONS]
  have hstep1 : TileManager.rechargeStep DEFAULT_OPTIONS (1 / 2)
      ⟨tickWorld, 0, []⟩ ((0 : ℤ), (0 : ℤ))
      = ⟨TileManager.persistTileState tickWorld 0 0 tickTile1, 1, []⟩ := by
    rw [TileManager.rechargeStep_some DEFAULT_OPTIONS (1 / 2) ⟨tickWorld, 0, []⟩
      ((0 : ℤ), (0 : ℤ)) tickTile hload1]
    dsimp only
    rw [hmult1]
    dsimp only
    rw [hev1]
    dsimp only
    rw [if_neg hsame1]
    simp only [ho1]
  have hload2 : TileManager.loadTile DEFAULT_OPTIONS
      (TileManager.persistTileState tickWorld 0 0 tickTile1) 0 0 = some tickTile1 := by
    unfold TileManager.loadTile
    rw [TileManager.persistTileState_tiles, Function.update_same]
    simp only [Option.map_some']
    simp [TileManager.parseTile, tickTile1, hc1, hc100, hr1, hr100, DEFAULT_OPTIONS]
    rw [show ((2000 : ℚ))⁻¹ = 1 / 2000 from by norm_num, hr1, hc1]
  have hmult2 : TileManager.getAllianceBonusMultiplier DEFAULT_OPTIONS
      (TileManager.persistTileState tickWorld 0 0 tickTile1) tickTile1 (1 / 2)
      = (1, TileManager.persistTileState tickWorld 0 0 tickTile1) := rfl
  have hstep2 : TileManager.rechargeStep DEFAULT_OPTIONS (1 / 2)
      ⟨TileManager.persistTileState tickWorld 0 0 tickTile1, 0, []⟩ ((0 : ℤ), (0 : ℤ))
      = ⟨TileManager.persistTileState (TileManager.persistTileState tickWorld 0 0 tickTile1)
          0 0 tickTile2, 1, []⟩ := by
    rw [TileManager.rechargeStep_some DEFAULT_OPTIONS (1 / 2)
      ⟨TileManager.persistTileState tickWorld 0 0 tickTile1, 0, []⟩
      ((0 : ℤ), (0 : ℤ)) tickTile1 hload2]
    dsimp only
    rw [hmult2]
    dsimp only
    rw [hev2]
    dsimp only
    rw [if_neg hsame2]
    simp only [ho2]
  have hrun1 : TileManager.rechargeEnergy DEFAULT_OPTIONS tickWorld (1 / 2)
      [((0 : ℤ), (0 : ℤ))]
      = (1, TileManager.persistTileState tickWorld 0 0 tickTile1) := by
    unfold TileManager.rechargeEnergy
    simp only [List.foldl_cons, List.foldl_nil, hstep1]
  rw [hrun1]
  unfold TileManager.rechargeEnergy
  simp only [List.foldl_cons, List.foldl_nil]
  rw [hstep2]

/-- C7 (amended): `setAllianceTag` accepts a null tag (leaves the alliance:
tag and color become null); accepts a non-null string whose trim+upcase
matches `^[A-Z0-9]{3,4}$`, with the deterministic derived color; treats a
non-null string whose trim+upcase is empty like null (leaves the alliance)
rather than raising; and raises a validation error on every other non-null
string. -/
theorem setAllianceTag_validation (cfg : TileManagerOptions) (w : World) (uid : String)
    (now : ℚ) (sGood sBlank sBad : String)
    (hu : uid ≠ "")
    (hGood : TileManager.isValidAllianceTag (strUpper (strTrim sGood)) = true)
    (hBlank : strUpper (strTrim sBlank) = "")
    (hBadNe : strUpper (strTrim sBad) ≠ "")
    (hBad : TileManager.isValidAllianceTag (strUpper (strTrim sBad)) = false) :
    ((TileManager.setAllianceTag cfg w uid none now).map
        fun p => (p.1.allianceTag, p.1.allianceColor)) = some (none, none)
    ∧ ((TileManager.setAllianceTag cfg w uid (some sGood) now).map
        fun p => (p.1.allianceTag, p.1.allianceColor))
      = some (some (strUpper (strTrim sGood)),
          some (TileManager.colorFromAllianceTag (strUpper (strTrim sGood))))
    ∧ ((TileManager.setAllianceTag cfg w uid (some sBlank) now).map
        fun p => (p.1.allianceTag, p.1.allianceColor)) = some (none, none)
    ∧ TileManager.setAllianceTag cfg w uid (some sBad) now = none := by
  have hGoodNe : strUpper (strTrim sGood) ≠ "" := by
    intro h0
    rw [h0] at hGood
    exact absurd hGood (by decide)
  refine ⟨?_, ?_, ?_, ?_⟩
  · simp [TileManager.setAllianceTag, TileManager.normalizeUserId, hu,
      TileManager.normalizeAllianceTag]
  · simp [TileManager.setAllianceTag, TileManager.normalizeUserId, hu,
      TileManager.normalizeAllianceTag, hGoodNe, hGood]
  · simp [TileManager.setAllianceTag, TileManager.normalizeUserId, hu,
      TileManager.normalizeAllianceTag, hBlank]
  · simp [TileManager.setAllianceTag, TileManager.normalizeUserId, hu,
      TileManager.normalizeAllianceTag, hBadNe, hBad]

/-- Witness for `setAllianceTag_validation`: user `a`, accepted tag `fox`
(normalizing to `FOX`), blank input `" "`, rejected input `x!`. -/
theorem setAllianceTag_validation_witness :
    ((TileManager.setAllianceTag DEFAULT_OPTIONS emptyWorld "a" (some "fox") 0).map
        fun p => (p.1.allianceTag, p.1.allianceColor))
      = some (some (strUpper (strTrim "fox")),
          some (TileManager.colorFromAllianceTag (strUpper (strTrim "fox")))) :=
  (setAllianceTag_validation DEFAULT_OPTIONS emptyWorld "a" 0 "fox" " " "x!"
    (by decide) (by decide) (by decide) (by decide) (by decide)).2.1

/-- Counterexample to C7 as stated: the non-null input `" "` does not match
`^[A-Z0-9]{3,4}$`, yet `setAllianceTag` accepts it (treating it as leaving
the alliance) instead of raising a validation error. -/
theorem setAllianceTag_blank_not_rejected :
    ((TileManager.setAllianceTag DEFAULT_OPTIONS emptyWorld "a" (some " ") 0).map
        fun p => p.1.allianceTag) = some none
    ∧ TileManager.isValidAllianceTag (strUpper (strTrim " ")) = false := by
  constructor
  · simp [TileManager.setAllianceTag, TileManager.normalizeUserId,
      TileManager.normalizeAllianceTag, show strTrim " " = "" by decide,
      show strUpper "" = "" by decide]
  · decide

/-- C10: `registerNexus(q, r)` without an explicit level argument defaults the
nexus level to 3 — not the data model's default tile level
(`initialTileLevel`, 1) — both when creating a fresh tile and when converting
an existing one (the world `w` is arbitrary, covering both branches of the
source). -/
theorem registerNexus_default_level (cfg : TileManagerOptions) (w : World) (q r : ℤ)
    (now : ℚ) :
    ((TileManager.registerNexus cfg w q r now).map fun p => (p.1.level, p.1.tileType))
        = some (3, TileType.nexus)
      ∧ DEFAULT_OPTIONS.initialTileLevel = 1 := by
  refine ⟨?_, rfl⟩
  cases h : TileManager.loadTile cfg w q r <;>
    simp [TileManager.registerNexus, h]

